import Mathlib

/-!
Verification of the task lifecycle and scheduling subsystem of the
`ai-agent` repository: a shallow embedding of
`src/modules/task_management.py` (task store, CPython `heapq`-backed
priority queue, lifecycle buckets, export/import) and of
`src/modules/orchestration.py` (the orchestrator state machine), with
theorems settling the specification claims about them.

Python dictionaries are embedded as insertion-ordered association lists,
machine state is passed explicitly, exceptions become `Except` values, and
wall-clock timestamps are threaded as opaque strings.
-/

set_option maxHeartbeats 1000000

namespace AIAgent

/-- JSON-like values standing for the Python objects stored in task
dictionaries and returned by collaborators. -/
inductive Val where
  | null
  | str (s : String)
  | num (n : Nat)
  | boolean (b : Bool)
  | list (l : List Val)
  | dict (l : List (String × Val))
deriving Repr, Inhabited

/-- Python truthiness of a value (`if not x:` tests). -/
def Val.truthy : Val → Bool
  | .null => false
  | .str s => !s.isEmpty
  | .num n => decide (n ≠ 0)
  | .boolean b => b
  | .list l => !l.isEmpty
  | .dict l => !l.isEmpty

/-- `d.get(k)` on an insertion-ordered dictionary. -/
def lookupKey {α : Type} (l : List (String × α)) (k : String) : Option α :=
  match l with
  | [] => none
  | (k2, v) :: rest => if k2 = k then some v else lookupKey rest k

/-- `d[k] = v` on an insertion-ordered dictionary: replaces in place if the
key is present, otherwise appends at the end. -/
def setKey {α : Type} (l : List (String × α)) (k : String) (v : α) :
    List (String × α) :=
  match l with
  | [] => [(k, v)]
  | (k2, w) :: rest => if k2 = k then (k2, v) :: rest else (k2, w) :: setKey rest k v

/-- `del d[k]` on an insertion-ordered dictionary (first occurrence). -/
def removeKey {α : Type} (l : List (String × α)) (k : String) :
    List (String × α) :=
  match l with
  | [] => []
  | (k2, w) :: rest => if k2 = k then rest else (k2, w) :: removeKey rest k

/-- `k in d`. -/
def hasKey {α : Type} (l : List (String × α)) (k : String) : Bool :=
  (lookupKey l k).isSome

/-- The keys of a dictionary, in order. -/
def keysOf {α : Type} (l : List (String × α)) : List String :=
  l.map Prod.fst

/-! ## Scheduler data model (`task_management.py`)

`Priority(Enum): LOW = 3, MEDIUM = 2, HIGH = 1`. -/

namespace Priority

def LOW : Nat := 3

def MEDIUM : Nat := 2

def HIGH : Nat := 1

end Priority

/-- The scheduler's `Task` dataclass. -/
structure Task where
  id : String
  description : String
  type : String
  priority : Nat
  created_at : String
  scheduled_at : Option String := none
  metadata : List (String × Val) := []
deriving Repr, Inhabited

/-- `Task.__lt__`: comparison by numeric priority only. -/
def taskLt (a b : Task) : Bool :=
  decide (a.priority < b.priority)

/-! ## CPython `heapq`, as used by `queue.PriorityQueue`

`PriorityQueue.put` is `heapq.heappush` and `PriorityQueue.get` is
`heapq.heappop` on the underlying list; items are compared with
`Task.__lt__`.  The functions below are the CPython library algorithms
transcribed on `List Task`. -/

/-- The loop of CPython `heapq._siftdown(heap, startpos, pos)`: `newitem`
(read from `heap[pos]` at entry) bubbles towards the root while it is
`<` its parent; parents are copied down along the way.

`fuel` bounds the iteration count so the recursion is structural (and thus
kernel-reducible). `pos` strictly decreases on every iteration, so any
`fuel ≥ pos` never binds, and the `fuel = 0` fallback coincides with the
loop-exit action (only `pos = 0` is then possible, where the guard
`startpos < pos` fails anyway): with the fuel supplied at the call sites
this is exactly the unbounded CPython loop. -/
def siftdownLoop (fuel : Nat) (heap : List Task) (startpos pos : Nat)
    (newitem : Task) : List Task :=
  match fuel with
  | 0 => heap.set pos newitem
  | fuel + 1 =>
    if startpos < pos then
      if taskLt newitem (heap.getD ((pos - 1) / 2) default) then
        siftdownLoop fuel (heap.set pos (heap.getD ((pos - 1) / 2) default))
          startpos ((pos - 1) / 2) newitem
      else
        heap.set pos newitem
    else
      heap.set pos newitem

/-- CPython `heapq._siftdown(heap, startpos, pos)`. -/
def siftdownFrom (heap : List Task) (startpos pos : Nat) : List Task :=
  siftdownLoop pos heap startpos pos (heap.getD pos default)

/-- CPython `heapq.heappush`. -/
def heappush (heap : List Task) (item : Task) : List Task :=
  siftdownFrom (heap ++ [item]) 0 heap.length

/-- The loop of CPython `heapq._siftup(heap, pos)`: the hole at `pos` is
moved down to a leaf, always towards the smaller child (the right child
when the left child is not `<` the right one). Returns the heap together
with the final hole position.

`fuel` again bounds the iteration count: `pos` strictly increases while
staying below the (preserved) length, so `fuel ≥ heap.length - pos` never
binds, and the `fuel = 0` fallback coincides with the loop-exit action. -/
def siftupLoop (fuel : Nat) (heap : List Task) (pos : Nat) :
    List Task × Nat :=
  match fuel with
  | 0 => (heap, pos)
  | fuel + 1 =>
    if 2 * pos + 1 < heap.length then
      if 2 * pos + 2 < heap.length ∧
          taskLt (heap.getD (2 * pos + 1) default)
            (heap.getD (2 * pos + 2) default) = false then
        siftupLoop fuel (heap.set pos (heap.getD (2 * pos + 2) default))
          (2 * pos + 2)
      else
        siftupLoop fuel (heap.set pos (heap.getD (2 * pos + 1) default))
          (2 * pos + 1)
    else
      (heap, pos)

/-- CPython `heapq._siftup(heap, pos)`: move the hole to a leaf with
`siftupLoop`, place `newitem` (read from `heap[pos]` at entry) at the
final hole position, and sift it back up towards `startpos = pos`. -/
def siftup (heap : List Task) (pos : Nat) : List Task :=
  siftdownFrom
    ((siftupLoop heap.length heap pos).1.set (siftupLoop heap.length heap pos).2
      (heap.getD pos default))
    pos (siftupLoop heap.length heap pos).2

/-- CPython `heapq.heappop`, returning the popped item and the remaining
heap (`none` on the empty heap, where Python raises `IndexError`; callers
in the repository guard with `empty()`). -/
def heappop (heap : List Task) : Option (Task × List Task) :=
  match heap with
  | [] => none
  | _ :: _ =>
    let lastelt := heap.getD (heap.length - 1) default
    let rest := heap.dropLast
    match h : rest with
    | [] => some (lastelt, [])
    | _ :: _ => some (rest.getD 0 default, siftup (rest.set 0 lastelt) 0)

/-- Repeated `heapq.heappop` with an iteration bound; each pop shortens
the heap by one, so `fuel = heap.length` drains it completely. -/
def popAllFuel (fuel : Nat) (heap : List Task) : List Task :=
  match fuel with
  | 0 => []
  | fuel + 1 =>
    match heappop heap with
    | none => []
    | some (t, rest) => t :: popAllFuel fuel rest

/-- Drain the heap by repeated `heappop` (repeated `next()` calls until the
queue is empty), collecting the popped tasks in order. -/
def popAll (heap : List Task) : List Task :=
  popAllFuel heap.length heap

/-- Push a whole list of tasks in order (a sequence of `put` calls). -/
def pushAll (heap : List Task) (ts : List Task) : List Task :=
  ts.foldl heappush heap

/-! ## `TaskManager` -/

/-- The `task_data` dictionary handed to `TaskManager.add_task`:
`id`, `description`, `type`, `created_at` are accessed with `[]`
(required), the rest with `.get` (optional). -/
structure TaskData where
  id : String
  description : String
  type : String
  priority : Option String := none
  created_at : String
  scheduled_at : Option String := none
  metadata : Option (List (String × Val)) := none
deriving Repr, Inhabited

/-- The `priority_map` lookup in `add_task`:
`priority_map.get(task_data.get('priority', 'medium'), Priority.MEDIUM.value)`. -/
def priorityOfString (s : String) : Nat :=
  if s = "low" then Priority.LOW
  else if s = "medium" then Priority.MEDIUM
  else if s = "high" then Priority.HIGH
  else Priority.MEDIUM

/-- Python truthiness of an optional string (`if task.scheduled_at:`). -/
def optStrTruthy : Option String → Bool
  | none => false
  | some s => !s.isEmpty

/-- The mutable state of a `TaskManager`: the ready queue (a `heapq` list)
and the four lifecycle dictionaries. -/
structure TMState where
  task_queue : List Task := []
  scheduled_tasks : List (String × Task) := []
  active_tasks : List (String × Task) := []
  completed_tasks : List (String × Task) := []
  failed_tasks : List (String × Task) := []
deriving Repr, Inhabited

/-- The `Task` object constructed inside `TaskManager.add_task`. -/
def taskOfData (td : TaskData) : Task :=
  { id := td.id, description := td.description, type := td.type,
    priority := priorityOfString (td.priority.getD "medium"),
    created_at := td.created_at,
    scheduled_at := td.scheduled_at, metadata := td.metadata.getD [] }

/-- `TaskManager.add_task`. -/
def add_task (st : TMState) (td : TaskData) : String × TMState :=
  let task := taskOfData td
  if optStrTruthy task.scheduled_at then
    (task.id, { st with scheduled_tasks := setKey st.scheduled_tasks task.id task })
  else
    (task.id, { st with task_queue := heappush st.task_queue task })

/-- `TaskManager.get_next_task`: pop the queue head (if any) and move it
into the active dictionary. -/
def get_next_task (st : TMState) : Option Task × TMState :=
  match heappop st.task_queue with
  | none => (none, st)
  | some (task, rest) =>
    (some task,
      { st with task_queue := rest,
                active_tasks := setKey st.active_tasks task.id task })

/-- `TaskManager.complete_task`: guarded by `task_id in self.active_tasks`;
attaches the result and a completion timestamp to the metadata. -/
def complete_task (st : TMState) (task_id : String) (result : Val)
    (now : String) : TMState :=
  match lookupKey st.active_tasks task_id with
  | none => st
  | some task =>
    let task := { task with
      metadata := setKey (setKey task.metadata "result" result)
        "completed_at" (.str now) }
    { st with active_tasks := removeKey st.active_tasks task_id,
              completed_tasks := setKey st.completed_tasks task_id task }

/-- `TaskManager.fail_task`: guarded by `task_id in self.active_tasks`;
attaches the error and a failure timestamp to the metadata. -/
def fail_task (st : TMState) (task_id error : String) (now : String) :
    TMState :=
  match lookupKey st.active_tasks task_id with
  | none => st
  | some task =>
    let task := { task with
      metadata := setKey (setKey task.metadata "error" (.str error))
        "failed_at" (.str now) }
    { st with active_tasks := removeKey st.active_tasks task_id,
              failed_tasks := setKey st.failed_tasks task_id task }

/-- `TaskManager.cancel_task`: scheduled bucket first (removed, `True`),
then the active bucket (refused, `False`), otherwise `False`. -/
def cancel_task (st : TMState) (task_id : String) : Bool × TMState :=
  if hasKey st.scheduled_tasks task_id then
    (true, { st with scheduled_tasks := removeKey st.scheduled_tasks task_id })
  else if hasKey st.active_tasks task_id then
    (false, st)
  else
    (false, st)

/-- One scan iteration of `TaskManager._scheduler_loop`: every scheduled
task whose due time has elapsed (`current_time >= scheduled_time`,
abstracted as the predicate `due` on the stored timestamp string) is
removed from the scheduled dictionary, its `scheduled_at` is cleared, and
it is pushed onto the ready queue. -/
def schedulerScan (st : TMState) (due : String → Bool) : TMState :=
  let ready := st.scheduled_tasks.filter fun kv => due (kv.2.scheduled_at.getD "")
  ready.foldl
    (fun acc kv =>
      { acc with
        scheduled_tasks := removeKey acc.scheduled_tasks kv.1,
        task_queue := heappush acc.task_queue { kv.2 with scheduled_at := none } })
    st

/-- `TaskManager.export_tasks`: the JSON payload holds the scheduled,
active, completed and failed dictionaries (one `asdict` record per task,
an exact image of the `Task`), and not the ready queue. -/
structure ExportData where
  scheduled_tasks : List (String × Task)
  active_tasks : List (String × Task)
  completed_tasks : List (String × Task)
  failed_tasks : List (String × Task)
deriving Repr, Inhabited

/-- `TaskManager.export_tasks` (the export timestamp is omitted: it is
never read back). -/
def export_tasks (st : TMState) : ExportData :=
  { scheduled_tasks := st.scheduled_tasks,
    active_tasks := st.active_tasks,
    completed_tasks := st.completed_tasks,
    failed_tasks := st.failed_tasks }

/-- `TaskManager.import_tasks`: reconstructs `Task(**task_data)` records
into the scheduled, completed and failed dictionaries of the receiving
manager. The `active_tasks` key of the payload is never read, and the
ready queue is untouched. -/
def import_tasks (st : TMState) (d : ExportData) : TMState :=
  let st := { st with scheduled_tasks :=
    d.scheduled_tasks.foldl (fun (acc : List (String × Task)) (kv : String × Task) => setKey acc kv.1 kv.2) st.scheduled_tasks }
  let st := { st with completed_tasks :=
    d.completed_tasks.foldl (fun (acc : List (String × Task)) (kv : String × Task) => setKey acc kv.1 kv.2) st.completed_tasks }
  { st with failed_tasks :=
    d.failed_tasks.foldl (fun (acc : List (String × Task)) (kv : String × Task) => setKey acc kv.1 kv.2) st.failed_tasks }

/-- A fresh `TaskManager` (`__init__`). -/
def emptyTM : TMState := {}

/-- Add a list of `task_data` dictionaries in order. -/
def addAll (st : TMState) (tds : List TaskData) : TMState :=
  tds.foldl (fun s td => (add_task s td).2) st

/-- Repeated `get_next_task` with an iteration bound; each successful call
shortens the queue by one, so `fuel = queue length` drains it. -/
def drainAllFuel (fuel : Nat) (st : TMState) : List Task × TMState :=
  match fuel with
  | 0 => ([], st)
  | fuel + 1 =>
    match get_next_task st with
    | (none, st2) => ([], st2)
    | (some task, st2) =>
      let p := drainAllFuel fuel st2
      (task :: p.1, p.2)

/-- Repeated `get_next_task` until the queue is empty, collecting the
returned tasks in order. -/
def drainAll (st : TMState) : List Task × TMState :=
  drainAllFuel st.task_queue.length st

/-- Test fixture: a `task_data` dictionary with the given id, `medium`
priority, and no due time. -/
def mediumTD (i : String) : TaskData :=
  { id := i, description := "task", type := "general",
    priority := some "medium", created_at := "t0" }

/-- Test fixture: a high-priority `task_data` dictionary. -/
def highTD : TaskData :=
  { id := "h1", description := "task", type := "general",
    priority := some "high", created_at := "t0" }

/-- Test fixture: a low-priority `task_data` dictionary. -/
def lowTD : TaskData :=
  { id := "l1", description := "task", type := "general",
    priority := some "low", created_at := "t0" }

/-- Test fixture: a queued `Task`. -/
def queuedTask : Task :=
  { id := "q1", description := "queued work", type := "general",
    priority := 2, created_at := "t0" }

/-- Test fixture: an active `Task`. -/
def activeTask : Task :=
  { id := "a1", description := "active work", type := "general",
    priority := 2, created_at := "t0" }

/-- Test fixture: a manager state with one task in the ready queue and one
in the active bucket. -/
def sampleTM : TMState :=
  { task_queue := [queuedTask], active_tasks := [("a1", activeTask)] }

/-- Test fixture: a `Task` scheduled for the future. -/
def scheduledTask : Task :=
  { id := "s1", description := "later work", type := "general",
    priority := 2, created_at := "t0",
    scheduled_at := some "2030-01-01T00:00:00" }

/-- Test fixture: a manager state with one scheduled task. -/
def schedTM : TMState :=
  { scheduled_tasks := [("s1", scheduledTask)] }

/-! ## `OrchestrationLayer` (`orchestration.py`)

The orchestrator owns a task registry (`self.tasks`, a dictionary of task
dictionaries); its collaborator modules perform external side effects
(subprocesses, file system, network) and are therefore abstracted as
functions returning `Except` values — an `error` value stands for a raised
Python exception carrying that message. -/

/-- A registry entry of `OrchestrationLayer.tasks` (the `task_data`
dictionary built in `create_task`, plus the `plan` key attached during
execution). -/
structure OTask where
  id : String
  description : String
  type : String
  priority : String
  status : String
  created_at : String
  updated_at : String
  metadata : List (String × Val) := []
  logs : List String := []
  progress : Nat := 0
  result : Option Val := none
  error : Option String := none
  plan : Option Val := none
deriving Repr, Inhabited

/-- The orchestrator's task registry `self.tasks`. -/
def OrchState : Type := List (String × OTask)

instance : Inhabited OrchState := ⟨([] : List (String × OTask))⟩

/-- The collaborator modules the orchestrator invokes, abstracted by their
call signatures; `Except.error` models a raised exception. -/
structure Collabs where
  analyze_and_plan : OTask → Except String Val
  create_project : OTask → Except String Val
  perform_analysis : OTask → Except String Val
  deploy_project : Val → Except String Val
  execute_general_task : OTask → Except String Val
  commit_task_changes : String → OTask → Except String Val

/-- The `if task_id in self.tasks:` guard shared by the mutation helpers
`_update_task_status`, `_update_task_progress` and `_log_task`. -/
def modifyTask (st : OrchState) (task_id : String) (f : OTask → OTask) :
    OrchState :=
  match lookupKey st task_id with
  | none => st
  | some t => setKey st task_id (f t)

/-- `OrchestrationLayer._update_task_status`. -/
def updateTaskStatus (st : OrchState) (task_id status now : String) :
    OrchState :=
  modifyTask st task_id fun t => { t with status := status, updated_at := now }

/-- `OrchestrationLayer._update_task_progress`. -/
def updateTaskProgress (st : OrchState) (task_id : String) (progress : Nat)
    (now : String) : OrchState :=
  modifyTask st task_id fun t => { t with progress := progress, updated_at := now }

/-- `OrchestrationLayer._log_task`: appends `"[{now}] {message}"`. -/
def logTask (st : OrchState) (task_id now message : String) : OrchState :=
  modifyTask st task_id fun t =>
    { t with logs := t.logs ++ ["[" ++ now ++ "] " ++ message] }

/-- `OrchestrationLayer.create_task` (the generated UUID and the clock are
parameters; the handoff of the same dictionary to `TaskManager.add_task`
is covered by `add_task` above). -/
def create_task (st : OrchState) (task_id description task_type priority : String)
    (metadata : List (String × Val)) (now : String) : String × OrchState :=
  let td : OTask := {
    id := task_id, description := description, type := task_type,
    priority := priority, status := "created", created_at := now,
    updated_at := now, metadata := metadata, logs := [], progress := 0,
    result := none, error := none, plan := none }
  (task_id, setKey st task_id td)

/-- `TaskType(value)`: succeeds exactly on the six enum values, raising
`ValueError` otherwise. -/
def parseTaskType (s : String) : Option String :=
  if s = "website_creation" ∨ s = "app_development" ∨ s = "data_analysis" ∨
      s = "planning" ∨ s = "deployment" ∨ s = "general" then
    some s
  else
    none

/-- The `except` block of `execute_task`: mark failed, record the error
string, append the failure log entry, and re-raise. -/
def failTask (st : OrchState) (task_id e now : String) :
    Except String Val × OrchState :=
  let st := updateTaskStatus st task_id "failed" now
  let st := modifyTask st task_id fun t => { t with error := some e }
  let st := logTask st task_id now ("Task failed: " ++ e)
  (.error e, st)

/-- `OrchestrationLayer._execute_development_task`. -/
def execute_development_task (c : Collabs) (now : String) (st : OrchState)
    (task_id : String) : Except String Val × OrchState :=
  let st := updateTaskStatus st task_id "in_progress" now
  let st := logTask st task_id now "Starting development phase"
  let task := (lookupKey st task_id).getD default
  match c.create_project task with
  | .error e => (.error e, st)
  | .ok dev_result =>
    let st := updateTaskProgress st task_id 80 now
    if ((lookupKey task.metadata "deploy").getD (.boolean false)).truthy then
      let st := logTask st task_id now "Deploying project"
      match dev_result with
      | .dict l =>
        match lookupKey l "project_path" with
        | none => (.error "project_path", st)
        | some pp =>
          match c.deploy_project pp with
          | .error e => (.error e, st)
          | .ok deploy_result =>
            let st := updateTaskProgress st task_id 100 now
            (.ok (Val.dict (setKey l "deployment" deploy_result)), st)
      | _ => (.error "project_path", st)
  else
      let st := updateTaskProgress st task_id 100 now
      (.ok dev_result, st)

/-- `OrchestrationLayer._execute_analysis_task`. -/
def execute_analysis_task (c : Collabs) (now : String) (st : OrchState)
    (task_id : String) : Except String Val × OrchState :=
  let st := updateTaskStatus st task_id "in_progress" now
  let st := logTask st task_id now "Starting analysis phase"
  let task := (lookupKey st task_id).getD default
  match c.perform_analysis task with
  | .error e => (.error e, st)
  | .ok r => (.ok r, updateTaskProgress st task_id 100 now)

/-- `OrchestrationLayer._execute_deployment_task`: reads
`task.get('metadata', {}).get('project_path')` and raises `ValueError`
when it is falsy. -/
def execute_deployment_task (c : Collabs) (now : String) (st : OrchState)
    (task_id : String) : Except String Val × OrchState :=
  let st := updateTaskStatus st task_id "in_progress" now
  let st := logTask st task_id now "Starting deployment phase"
  let task := (lookupKey st task_id).getD default
  let project_path := (lookupKey task.metadata "project_path").getD .null
  if project_path.truthy then
    match c.deploy_project project_path with
    | .error e => (.error e, st)
    | .ok r => (.ok r, updateTaskProgress st task_id 100 now)
  else
    (.error "Project path required for deployment task", st)

/-- `OrchestrationLayer._execute_general_task`. -/
def general_task_phase (c : Collabs) (now : String) (st : OrchState)
    (task_id : String) : Except String Val × OrchState :=
  let st := updateTaskStatus st task_id "in_progress" now
  let st := logTask st task_id now "Processing general task"
  let task := (lookupKey st task_id).getD default
  match c.execute_general_task task with
  | .error e => (.error e, st)
  | .ok r => (.ok r, updateTaskProgress st task_id 100 now)

/-- `OrchestrationLayer.execute_task`. -/
def execute_task (c : Collabs) (now : String) (st : OrchState)
    (task_id : String) : Except String Val × OrchState :=
  match lookupKey st task_id with
  | none => (.error ("Task " ++ task_id ++ " not found"), st)
  | some _ =>
    let st := updateTaskStatus st task_id "planning" now
    let st := logTask st task_id now "Starting planning and analysis phase"
    let task := (lookupKey st task_id).getD default
    match c.analyze_and_plan task with
    | .error e => failTask st task_id e now
    | .ok plan =>
      let st := modifyTask st task_id fun t => { t with plan := some plan }
      let task := (lookupKey st task_id).getD default
      match parseTaskType task.type with
      | none => failTask st task_id ("is not a valid TaskType: " ++ task.type) now
      | some tt =>
        let r :=
          if tt = "website_creation" ∨ tt = "app_development" then
            execute_development_task c now st task_id
          else if tt = "data_analysis" then
            execute_analysis_task c now st task_id
          else if tt = "deployment" then
            execute_deployment_task c now st task_id
          else
            general_task_phase c now st task_id
        match r with
        | (.error e, st2) => failTask st2 task_id e now
        | (.ok result, st2) =>
          let st2 := logTask st2 task_id now "Committing changes to version control"
          let task2 := (lookupKey st2 task_id).getD default
          match c.commit_task_changes task_id task2 with
          | .error e => failTask st2 task_id e now
          | .ok _ =>
            let st2 := updateTaskStatus st2 task_id "completed" now
            let st2 := modifyTask st2 task_id fun t => { t with result := some result }
            (.ok result, st2)

/-- Test fixture: collaborators that always succeed. -/
def okCollabs : Collabs :=
  { analyze_and_plan := fun _ => .ok (.str "plan"),
    create_project := fun _ => .ok (.dict [("project_path", .str "proj")]),
    perform_analysis := fun _ => .ok (.str "analysis"),
    deploy_project := fun _ => .ok (.str "deployed"),
    execute_general_task := fun _ => .ok (.str "general done"),
    commit_task_changes := fun _ _ => .ok (.str "committed") }

/-- Test fixture: collaborators whose planning module raises. -/
def failingPlanCollabs : Collabs :=
  { okCollabs with analyze_and_plan := fun _ => .error "planning failed" }

/-- Test fixture: a freshly created registry task with an unrecognized
declared type string. -/
def customTypeTask : OTask :=
  { id := "t1", description := "do something", type := "custom_type",
    priority := "medium", status := "created", created_at := "t0",
    updated_at := "t0" }

/-- Test fixture: a freshly created registry task of general type. -/
def generalTask : OTask :=
  { id := "t1", description := "do something", type := "general",
    priority := "medium", status := "created", created_at := "t0",
    updated_at := "t0" }

/-- The computation `execute_task` performs when the type-based dispatch
step selects the general phase handler: identical to `execute_task`
except that the dispatch is fixed to `_execute_general_task`. -/
def general_route (c : Collabs) (now : String) (st : OrchState)
    (task_id : String) : Except String Val × OrchState :=
  match lookupKey st task_id with
  | none => (.error ("Task " ++ task_id ++ " not found"), st)
  | some _ =>
    let st := updateTaskStatus st task_id "planning" now
    let st := logTask st task_id now "Starting planning and analysis phase"
    let task := (lookupKey st task_id).getD default
    match c.analyze_and_plan task with
    | .error e => failTask st task_id e now
    | .ok plan =>
      let st := modifyTask st task_id fun t => { t with plan := some plan }
      match general_task_phase c now st task_id with
      | (.error e, st2) => failTask st2 task_id e now
      | (.ok result, st2) =>
        let st2 := logTask st2 task_id now "Committing changes to version control"
        let task2 := (lookupKey st2 task_id).getD default
        match c.commit_task_changes task_id task2 with
        | .error e => failTask st2 task_id e now
        | .ok _ =>
          let st2 := updateTaskStatus st2 task_id "completed" now
          let st2 := modifyTask st2 task_id fun t => { t with result := some result }
          (.ok result, st2)

/-- Test fixture: a freshly created deployment-typed registry task whose
metadata has no `project_path` key. -/
def deployTask : OTask :=
  { id := "d1", description := "deploy it", type := "deployment",
    priority := "medium", status := "created", created_at := "t0",
    updated_at := "t0" }

/-- Test fixture: a registry holding only `customTypeTask`. -/
def customState : OrchState := [("t1", customTypeTask)]

/-- Test fixture: a registry holding only `generalTask`. -/
def generalState : OrchState := [("t1", generalTask)]

/-- Test fixture: `generalState` after one `execute_task` whose planning
collaborator raised: the task is `failed` with its error recorded. -/
def afterFail : OrchState :=
  (execute_task failingPlanCollabs "t1" generalState "t1").2

/-- Test fixture: `afterFail` after a second `execute_task` in which every
collaborator succeeds. -/
def afterBoth : OrchState :=
  (execute_task okCollabs "t2" afterFail "t1").2

/-! # Theorems

## List index and length helpers -/

theorem getD_set_self (l : List Task) (i : Nat) (a : Task) (h : i < l.length) :
    (l.set i a).getD i default = a := by
  simp [List.getD, List.getElem?_set_eq_of_lt a h]

theorem getD_set_ne (l : List Task) (i j : Nat) (a : Task) (h : i ≠ j) :
    (l.set i a).getD j default = l.getD j default := by
  simp [List.getD, List.getElem?_set_ne h]

theorem getD_append_left (l l2 : List Task) (i : Nat) (h : i < l.length) :
    (l ++ l2).getD i default = l.getD i default := by
  simp [List.getD, List.getElem?_append_left h]

theorem getD_append_self (l : List Task) (x : Task) :
    (l ++ [x]).getD l.length default = x := by
  simp [List.getD, List.getElem?_concat_length]

theorem getD_dropLast (l : List Task) (i : Nat) (h : i < l.length - 1) :
    l.dropLast.getD i default = l.getD i default := by
  rw [List.dropLast_eq_take]
  simp [List.getD, List.getElem?_take, h]
  rw [List.getElem?_eq_getElem (show i < l.length by omega)]
  rfl

theorem getD_last (l : List Task) (hl : l ≠ []) :
    l.getD (l.length - 1) default = l.getLast hl := by
  rw [List.getLast_eq_getElem]
  have h : l.length - 1 < l.length := by
    have := List.length_pos.mpr hl
    omega
  simp [List.getD, List.getElem?_eq_getElem h]

theorem siftdownLoop_length (fuel : Nat) (heap : List Task)
    (startpos pos : Nat) (newitem : Task) :
    (siftdownLoop fuel heap startpos pos newitem).length = heap.length := by
  induction fuel generalizing heap pos with
  | zero => simp [siftdownLoop]
  | succ fuel ih =>
    rw [siftdownLoop]
    split
    · split
      · rw [ih]
        simp
      · simp
    · simp

theorem siftdownFrom_length (heap : List Task) (startpos pos : Nat) :
    (siftdownFrom heap startpos pos).length = heap.length :=
  siftdownLoop_length pos heap startpos pos _

theorem heappush_length (heap : List Task) (item : Task) :
    (heappush heap item).length = heap.length + 1 := by
  unfold heappush
  rw [siftdownFrom_length]
  simp

theorem siftupLoop_length (fuel : Nat) (heap : List Task) (pos : Nat) :
    (siftupLoop fuel heap pos).1.length = heap.length := by
  induction fuel generalizing heap pos with
  | zero => simp [siftupLoop]
  | succ fuel ih =>
    rw [siftupLoop]
    split
    · split
      · rw [ih]
        simp
      · rw [ih]
        simp
    · rfl

theorem siftup_length (heap : List Task) (pos : Nat) :
    (siftup heap pos).length = heap.length := by
  unfold siftup
  rw [siftdownFrom_length]
  rw [List.length_set]
  exact siftupLoop_length _ heap pos

theorem heappop_length (heap : List Task) (t : Task) (rest : List Task)
    (h : heappop heap = some (t, rest)) : rest.length + 1 = heap.length := by
  unfold heappop at h
  match heap with
  | [] => exact absurd h (by simp)
  | a :: l =>
    simp only at h
    split at h
    · rename_i heq
      simp only [Option.some.injEq, Prod.mk.injEq] at h
      have hl : (a :: l).dropLast.length = l.length := by simp
      rw [heq] at hl
      simp only [List.length_nil] at hl
      simp [← h.2, ← hl]
    · rename_i heq
      simp only [Option.some.injEq, Prod.mk.injEq] at h
      rw [← h.2, siftup_length, List.length_set]
      simp

/-! ## Heap ordering theory

`heapq` maintains the standard binary-heap invariant with respect to
`Task.__lt__`, which compares by `priority` alone. -/

theorem taskLt_true_iff {a b : Task} :
    taskLt a b = true ↔ a.priority < b.priority := by
  simp [taskLt]

theorem taskLt_false_iff {a b : Task} :
    taskLt a b = false ↔ b.priority ≤ a.priority := by
  simp [taskLt, Nat.not_lt]

/-- The binary-heap invariant of a `heapq` list: every element's priority
is `≤` the priorities of its children at indices `2i+1` and `2i+2`. -/
def heapInv (l : List Task) : Prop :=
  ∀ i j : Nat, (j = 2 * i + 1 ∨ j = 2 * i + 2) → j < l.length →
    (l.getD i default).priority ≤ (l.getD j default).priority

theorem heapInv_nil : heapInv [] := by
  intro i j _ hj
  simp at hj

theorem heapInv_root_le (l : List Task) (hInv : heapInv l) :
    ∀ j, j < l.length →
      (l.getD 0 default).priority ≤ (l.getD j default).priority := by
  intro j
  induction j using Nat.strong_induction_on with
  | _ j ih =>
    intro hj
    rcases Nat.eq_zero_or_pos j with h0 | h0
    · subst h0
      exact Nat.le_refl _
    · have hpar : j = 2 * ((j - 1) / 2) + 1 ∨ j = 2 * ((j - 1) / 2) + 2 := by
        omega
      have hlt : (j - 1) / 2 < j := by omega
      exact Nat.le_trans (ih _ hlt (Nat.lt_trans hlt hj)) (hInv _ _ hpar hj)

/-- Writing `newitem` at a position whose parent is already `≤` it and
whose children are already `≥` it restores the heap invariant. -/
theorem heapInv_place (heap : List Task) (pos : Nat) (newitem : Task)
    (hpos : pos < heap.length)
    (ha : ∀ i j, (j = 2 * i + 1 ∨ j = 2 * i + 2) → j < heap.length →
      i ≠ pos → j ≠ pos →
      (heap.getD i default).priority ≤ (heap.getD j default).priority)
    (hb : ∀ j, (j = 2 * pos + 1 ∨ j = 2 * pos + 2) → j < heap.length →
      newitem.priority ≤ (heap.getD j default).priority)
    (hparent : 0 < pos →
      (heap.getD ((pos - 1) / 2) default).priority ≤ newitem.priority) :
    heapInv (heap.set pos newitem) := by
  intro i j hj hjlen
  rw [List.length_set] at hjlen
  by_cases hip : i = pos
  · subst hip
    rw [getD_set_self _ _ _ hpos, getD_set_ne _ _ _ _ (show i ≠ j by omega)]
    exact hb j hj hjlen
  · by_cases hjp : j = pos
    · subst hjp
      have hi2 : i = (j - 1) / 2 := by omega
      have h0 : 0 < j := by omega
      rw [getD_set_self _ _ _ hpos, getD_set_ne _ _ _ _ (show j ≠ i by omega)]
      rw [hi2]
      exact hparent h0
    · rw [getD_set_ne _ _ _ _ (show pos ≠ i by omega),
        getD_set_ne _ _ _ _ (show pos ≠ j by omega)]
      exact ha i j hj hjlen hip hjp

/-- The up-sift loop restores the heap invariant, provided the invariant
already holds on all pairs not involving the hole position `pos`, the
hole's prospective content `newitem` is `≤` the hole's children, and the
hole's parent is `≤` the hole's children. -/
theorem siftdownLoop_inv (fuel : Nat) :
    ∀ (heap : List Task) (pos : Nat) (newitem : Task),
    pos ≤ fuel → pos < heap.length →
    (∀ i j, (j = 2 * i + 1 ∨ j = 2 * i + 2) → j < heap.length →
      i ≠ pos → j ≠ pos →
      (heap.getD i default).priority ≤ (heap.getD j default).priority) →
    (∀ j, (j = 2 * pos + 1 ∨ j = 2 * pos + 2) → j < heap.length →
      newitem.priority ≤ (heap.getD j default).priority) →
    (0 < pos → ∀ j, (j = 2 * pos + 1 ∨ j = 2 * pos + 2) → j < heap.length →
      (heap.getD ((pos - 1) / 2) default).priority ≤
        (heap.getD j default).priority) →
    heapInv (siftdownLoop fuel heap 0 pos newitem) := by
  induction fuel with
  | zero =>
    intro heap pos newitem hfuel hpos ha hb _
    have hp0 : pos = 0 := Nat.le_zero.mp hfuel
    subst hp0
    rw [siftdownLoop]
    exact heapInv_place heap 0 newitem hpos ha hb (fun h => absurd h (by omega))
  | succ fuel ih =>
    intro heap pos newitem hfuel hpos ha hb hc
    rw [siftdownLoop]
    by_cases h0 : 0 < pos
    · rw [if_pos h0]
      by_cases hlt : taskLt newitem (heap.getD ((pos - 1) / 2) default) = true
      · rw [if_pos hlt]
        have hpplt : (pos - 1) / 2 < pos := by omega
        apply ih (heap.set pos (heap.getD ((pos - 1) / 2) default))
          ((pos - 1) / 2) newitem (by omega)
        · rw [List.length_set]
          omega
        · intro i j hj hjlen hi hj2
          rw [List.length_set] at hjlen
          by_cases hip : i = pos
          · subst hip
            rw [getD_set_self _ _ _ hpos,
              getD_set_ne _ _ _ _ (show i ≠ j by omega)]
            exact hc h0 j hj hjlen
          · by_cases hjp : j = pos
            · exfalso
              apply hi
              omega
            · rw [getD_set_ne _ _ _ _ (show pos ≠ i by omega),
                getD_set_ne _ _ _ _ (show pos ≠ j by omega)]
              exact ha i j hj hjlen hip hjp
        · intro j hj hjlen
          rw [List.length_set] at hjlen
          by_cases hjp : j = pos
          · subst hjp
            rw [getD_set_self _ _ _ hpos]
            exact Nat.le_of_lt (taskLt_true_iff.mp hlt)
          · rw [getD_set_ne _ _ _ _ (show pos ≠ j by omega)]
            have h1 : newitem.priority <
                (heap.getD ((pos - 1) / 2) default).priority :=
              taskLt_true_iff.mp hlt
            have h2 : (heap.getD ((pos - 1) / 2) default).priority ≤
                (heap.getD j default).priority :=
              ha ((pos - 1) / 2) j hj hjlen (by omega) hjp
            omega
        · intro h0pp j hj hjlen
          rw [List.length_set] at hjlen
          rw [getD_set_ne _ _ _ _ (show pos ≠ ((pos - 1) / 2 - 1) / 2 by omega)]
          have hstep1 : (heap.getD (((pos - 1) / 2 - 1) / 2) default).priority ≤
              (heap.getD ((pos - 1) / 2) default).priority := by
            apply ha (((pos - 1) / 2 - 1) / 2) ((pos - 1) / 2) (by omega)
              (by omega) (by omega) (by omega)
          by_cases hjp : j = pos
          · subst hjp
            rw [getD_set_self _ _ _ hpos]
            exact hstep1
          · rw [getD_set_ne _ _ _ _ (show pos ≠ j by omega)]
            have hstep2 : (heap.getD ((pos - 1) / 2) default).priority ≤
                (heap.getD j default).priority :=
              ha ((pos - 1) / 2) j hj hjlen (by omega) hjp
            omega
      · rw [if_neg hlt]
        have hlt2 : taskLt newitem (heap.getD ((pos - 1) / 2) default) = false := by
          revert hlt
          cases taskLt newitem (heap.getD ((pos - 1) / 2) default) <;> simp
        apply heapInv_place heap pos newitem hpos ha hb
        intro _
        exact taskLt_false_iff.mp hlt2
    · rw [if_neg h0]
      have hp0 : pos = 0 := by omega
      subst hp0
      exact heapInv_place heap 0 newitem hpos ha hb (fun h => absurd h (by omega))

/-- `heappush` preserves the heap invariant. -/
theorem heapInv_push (l : List Task) (x : Task) (h : heapInv l) :
    heapInv (heappush l x) := by
  unfold heappush siftdownFrom
  rw [getD_append_self]
  apply siftdownLoop_inv l.length (l ++ [x]) l.length x (Nat.le_refl _)
  · simp
  · intro i j hj hjlen hi hj2
    simp only [List.length_append, List.length_cons, List.length_nil] at hjlen
    have hjl : j < l.length := by omega
    have hil : i < l.length := by omega
    rw [getD_append_left _ _ _ hil, getD_append_left _ _ _ hjl]
    exact h i j hj hjl
  · intro j hj hjlen
    simp only [List.length_append, List.length_cons, List.length_nil] at hjlen
    omega
  · intro _ j hj hjlen
    simp only [List.length_append, List.length_cons, List.length_nil] at hjlen
    omega

/-- The down-sift loop of `_siftup` moves the hole to a leaf while
preserving the heap invariant on all pairs not involving the hole, and
keeping the hole's parent `≤` the hole's children. -/
theorem siftupLoop_spec (fuel : Nat) :
    ∀ (heap : List Task) (pos : Nat),
    heap.length - pos ≤ fuel → pos < heap.length →
    (∀ i j, (j = 2 * i + 1 ∨ j = 2 * i + 2) → j < heap.length →
      i ≠ pos → j ≠ pos →
      (heap.getD i default).priority ≤ (heap.getD j default).priority) →
    (0 < pos → ∀ j, (j = 2 * pos + 1 ∨ j = 2 * pos + 2) → j < heap.length →
      (heap.getD ((pos - 1) / 2) default).priority ≤
        (heap.getD j default).priority) →
    (siftupLoop fuel heap pos).2 < heap.length ∧
    ¬ 2 * (siftupLoop fuel heap pos).2 + 1 < heap.length ∧
    (∀ i j, (j = 2 * i + 1 ∨ j = 2 * i + 2) → j < heap.length →
      i ≠ (siftupLoop fuel heap pos).2 → j ≠ (siftupLoop fuel heap pos).2 →
      ((siftupLoop fuel heap pos).1.getD i default).priority ≤
        ((siftupLoop fuel heap pos).1.getD j default).priority) := by
  induction fuel with
  | zero =>
    intro heap pos h1 h2 _ _
    exact absurd h2 (by omega)
  | succ fuel ih =>
    intro heap pos h1 h2 ha hc
    rw [siftupLoop]
    by_cases hg : 2 * pos + 1 < heap.length
    · rw [if_pos hg]
      by_cases h2c : 2 * pos + 2 < heap.length ∧
          taskLt (heap.getD (2 * pos + 1) default)
            (heap.getD (2 * pos + 2) default) = false
      · rw [if_pos h2c]
        obtain ⟨hrlen, hltf⟩ := h2c
        have key := ih (heap.set pos (heap.getD (2 * pos + 2) default))
          (2 * pos + 2) ?hh1 ?hh2 ?hha ?hhc
        case hh1 =>
          simp only [List.length_set]
          omega
        case hh2 =>
          simp only [List.length_set]
          exact hrlen
        case hha =>
          intro i j hj hjlen hi hj2
          rw [List.length_set] at hjlen
          by_cases hip : i = pos
          · subst hip
            have hj1 : j = 2 * i + 1 := by omega
            subst hj1
            rw [getD_set_self _ _ _ h2,
              getD_set_ne _ _ _ _ (show i ≠ 2 * i + 1 by omega)]
            exact taskLt_false_iff.mp hltf
          · by_cases hjp : j = pos
            · subst hjp
              have hi2 : i = (j - 1) / 2 := by omega
              have h0 : 0 < j := by omega
              rw [getD_set_self _ _ _ h2,
                getD_set_ne _ _ _ _ (show j ≠ i by omega), hi2]
              exact hc h0 (2 * j + 2) (Or.inr rfl) hrlen
            · rw [getD_set_ne _ _ _ _ (show pos ≠ i by omega),
                getD_set_ne _ _ _ _ (show pos ≠ j by omega)]
              exact ha i j hj hjlen hip hjp
        case hhc =>
          intro h0p j hj hjlen
          rw [List.length_set] at hjlen
          rw [show (2 * pos + 2 - 1) / 2 = pos by omega]
          rw [getD_set_self _ _ _ h2,
            getD_set_ne _ _ _ _ (show pos ≠ j by omega)]
          exact ha (2 * pos + 2) j hj hjlen (by omega) (by omega)
        obtain ⟨k1, k2, k3⟩ := key
        simp only [List.length_set] at k1 k2 k3
        exact ⟨k1, k2, k3⟩
      · rw [if_neg h2c]
        have key := ih (heap.set pos (heap.getD (2 * pos + 1) default))
          (2 * pos + 1) ?gh1 ?gh2 ?gha ?ghc
        case gh1 =>
          simp only [List.length_set]
          omega
        case gh2 =>
          simp only [List.length_set]
          exact hg
        case gha =>
          intro i j hj hjlen hi hj2
          rw [List.length_set] at hjlen
          by_cases hip : i = pos
          · subst hip
            have hj1 : j = 2 * i + 2 := by omega
            subst hj1
            rw [getD_set_self _ _ _ h2,
              getD_set_ne _ _ _ _ (show i ≠ 2 * i + 2 by omega)]
            have hbt : taskLt (heap.getD (2 * i + 1) default)
                (heap.getD (2 * i + 2) default) = true := by
              cases hbv : taskLt (heap.getD (2 * i + 1) default)
                  (heap.getD (2 * i + 2) default) with
              | false => exact absurd ⟨hjlen, hbv⟩ h2c
              | true => rfl
            exact Nat.le_of_lt (taskLt_true_iff.mp hbt)
          · by_cases hjp : j = pos
            · subst hjp
              have hi2 : i = (j - 1) / 2 := by omega
              have h0 : 0 < j := by omega
              rw [getD_set_self _ _ _ h2,
                getD_set_ne _ _ _ _ (show j ≠ i by omega), hi2]
              exact hc h0 (2 * j + 1) (Or.inl rfl) hg
            · rw [getD_set_ne _ _ _ _ (show pos ≠ i by omega),
                getD_set_ne _ _ _ _ (show pos ≠ j by omega)]
              exact ha i j hj hjlen hip hjp
        case ghc =>
          intro h0p j hj hjlen
          rw [List.length_set] at hjlen
          rw [show (2 * pos + 1 - 1) / 2 = pos by omega]
          rw [getD_set_self _ _ _ h2,
            getD_set_ne _ _ _ _ (show pos ≠ j by omega)]
          exact ha (2 * pos + 1) j hj hjlen (by omega) (by omega)
        obtain ⟨k1, k2, k3⟩ := key
        simp only [List.length_set] at k1 k2 k3
        exact ⟨k1, k2, k3⟩
    · rw [if_neg hg]
      exact ⟨h2, hg, ha⟩

/-- `_siftup` from the root restores the heap invariant when the invariant
holds on all pairs not involving the root. -/
theorem heapInv_siftup_zero (h0 : List Task) (hlen : 0 < h0.length)
    (ha : ∀ i j, (j = 2 * i + 1 ∨ j = 2 * i + 2) → j < h0.length →
      i ≠ 0 → j ≠ 0 →
      (h0.getD i default).priority ≤ (h0.getD j default).priority) :
    heapInv (siftup h0 0) := by
  obtain ⟨k1, k2, k3⟩ := siftupLoop_spec h0.length h0 0 (by omega) hlen ha
    (fun h => absurd h (by omega))
  have hlen1 : (siftupLoop h0.length h0 0).1.length = h0.length :=
    siftupLoop_length _ _ _
  unfold siftup siftdownFrom
  rw [getD_set_self _ _ _ (by rw [hlen1]; exact k1)]
  apply siftdownLoop_inv _ _ _ _ (Nat.le_refl _)
  · rw [List.length_set, hlen1]
    exact k1
  · intro i j hj hjlen hi hj2
    rw [List.length_set, hlen1] at hjlen
    rw [getD_set_ne _ _ _ _ (Ne.symm hi), getD_set_ne _ _ _ _ (Ne.symm hj2)]
    exact k3 i j hj hjlen hi hj2
  · intro j hj hjlen
    rw [List.length_set, hlen1] at hjlen
    exact absurd (show 2 * (siftupLoop h0.length h0 0).2 + 1 < h0.length by
      omega) k2
  · intro _ j hj hjlen
    rw [List.length_set, hlen1] at hjlen
    exact absurd (show 2 * (siftupLoop h0.length h0 0).2 + 1 < h0.length by
      omega) k2

/-- `heappop` preserves the heap invariant on the remaining heap. -/
theorem heapInv_pop (l : List Task) (t : Task) (rest : List Task)
    (h : heappop l = some (t, rest)) (hInv : heapInv l) : heapInv rest := by
  unfold heappop at h
  match l with
  | [] => exact absurd h (by simp)
  | a :: l2 =>
    simp only at h
    split at h
    · simp only [Option.some.injEq, Prod.mk.injEq] at h
      rw [← h.2]
      exact heapInv_nil
    · rename_i x xs heq
      simp only [Option.some.injEq, Prod.mk.injEq] at h
      rw [← h.2]
      have hdl : ((a :: l2).dropLast).length = (a :: l2).length - 1 := by
        simp
      have hpos : 0 < ((a :: l2).dropLast).length := by
        rw [heq]
        simp
      apply heapInv_siftup_zero
      · rw [List.length_set]
        exact hpos
      · intro i j hj hjlen hi hj2
        rw [List.length_set] at hjlen
        rw [getD_set_ne _ _ _ _ (Ne.symm hi), getD_set_ne _ _ _ _ (Ne.symm hj2)]
        rw [getD_dropLast _ _ (by omega), getD_dropLast _ _ (by omega)]
        exact hInv i j hj (by omega)

/-- The task returned by `heappop` has minimal priority in the heap. -/
theorem heappop_min (l : List Task) (t : Task) (rest : List Task)
    (h : heappop l = some (t, rest)) (hInv : heapInv l) :
    ∀ j, j < l.length → t.priority ≤ (l.getD j default).priority := by
  have hroot : t = l.getD 0 default := by
    unfold heappop at h
    match l with
    | [] => exact absurd h (by simp)
    | a :: l2 =>
      simp only at h
      split at h
      · rename_i heq
        simp only [Option.some.injEq, Prod.mk.injEq] at h
        have hl2 : l2 = [] := by
          have hlen := congrArg List.length heq
          simp at hlen
          exact hlen
        subst hl2
        rw [← h.1]
        rfl
      · rename_i x xs heq
        simp only [Option.some.injEq, Prod.mk.injEq] at h
        rw [← h.1]
        have hlen := congrArg List.length heq
        simp at hlen
        rw [getD_dropLast _ _ (by simp; omega)]
  rw [hroot]
  exact fun j hj => heapInv_root_le l hInv j hj

/-! ## Multiset preservation: pushes and pops neither lose nor duplicate
tasks -/

theorem getD_over (l : List Task) (j : Nat) (h : j < l.length) :
    l.getD j default = l.get ⟨j, h⟩ := by
  simp [List.getD, List.getElem?_eq_getElem h, List.get_eq_getElem]

theorem ms_set (l : List Task) (i : Nat) (a : Task) (h : i < l.length) :
    l.getD i default ::ₘ (↑(l.set i a) : Multiset Task) =
      a ::ₘ (↑l : Multiset Task) := by
  induction l generalizing i with
  | nil => simp at h
  | cons x xs ih =>
    cases i with
    | zero =>
      rw [List.getD_cons_zero, List.set_cons_zero]
      rw [← Multiset.cons_coe, ← Multiset.cons_coe]
      exact Multiset.cons_swap x a ↑xs
    | succ n =>
      have h2 : n < xs.length := by
        simp at h
        omega
      rw [List.getD_cons_succ, List.set_cons_succ]
      rw [← Multiset.cons_coe, ← Multiset.cons_coe]
      rw [Multiset.cons_swap (xs.getD n default) x, Multiset.cons_swap a x]
      rw [ih n h2]

theorem ms_exchange (g p n : Task) (A B X M : Multiset Task)
    (h1 : g ::ₘ A = p ::ₘ M) (h2 : g ::ₘ B = n ::ₘ M)
    (h3 : p ::ₘ X = n ::ₘ A) : X = B := by
  have key : g ::ₘ p ::ₘ X = g ::ₘ p ::ₘ B :=
    calc g ::ₘ p ::ₘ X = g ::ₘ n ::ₘ A := by rw [h3]
    _ = n ::ₘ g ::ₘ A := Multiset.cons_swap _ _ _
    _ = n ::ₘ p ::ₘ M := by rw [h1]
    _ = p ::ₘ n ::ₘ M := Multiset.cons_swap _ _ _
    _ = p ::ₘ g ::ₘ B := by rw [← h2]
    _ = g ::ₘ p ::ₘ B := Multiset.cons_swap _ _ _
  exact (Multiset.cons_inj_right p).mp ((Multiset.cons_inj_right g).mp key)

theorem siftdownLoop_ms (fuel : Nat) :
    ∀ (heap : List Task) (startpos pos : Nat) (newitem : Task),
    pos < heap.length →
    (↑(siftdownLoop fuel heap startpos pos newitem) : Multiset Task) =
      ↑(heap.set pos newitem) := by
  induction fuel with
  | zero =>
    intro heap s pos ni _
    rw [siftdownLoop]
  | succ fuel ih =>
    intro heap s pos ni hpos
    rw [siftdownLoop]
    by_cases h0 : s < pos
    · rw [if_pos h0]
      by_cases hlt : taskLt ni (heap.getD ((pos - 1) / 2) default) = true
      · rw [if_pos hlt]
        rw [ih _ _ _ _ (by rw [List.length_set]; omega)]
        apply ms_exchange (heap.getD pos default)
          (heap.getD ((pos - 1) / 2) default) ni _ _ _ (↑heap)
        · exact ms_set heap pos _ hpos
        · exact ms_set heap pos ni hpos
        · have hppln : (pos - 1) / 2 <
              (heap.set pos (heap.getD ((pos - 1) / 2) default)).length := by
            rw [List.length_set]
            omega
          have hx := ms_set (heap.set pos (heap.getD ((pos - 1) / 2) default))
            ((pos - 1) / 2) ni hppln
          rw [getD_set_ne _ _ _ _ (show pos ≠ (pos - 1) / 2 by omega)] at hx
          exact hx
      · rw [if_neg hlt]
    · rw [if_neg h0]

theorem siftupLoop_ms (fuel : Nat) :
    ∀ (heap : List Task) (pos : Nat) (v : Task), pos < heap.length →
    (↑((siftupLoop fuel heap pos).1.set (siftupLoop fuel heap pos).2 v) :
        Multiset Task) =
      ↑(heap.set pos v) := by
  induction fuel with
  | zero =>
    intro heap pos v _
    rw [siftupLoop]
  | succ fuel ih =>
    intro heap pos v hpos
    rw [siftupLoop]
    by_cases hg : 2 * pos + 1 < heap.length
    · rw [if_pos hg]
      by_cases h2c : 2 * pos + 2 < heap.length ∧
          taskLt (heap.getD (2 * pos + 1) default)
            (heap.getD (2 * pos + 2) default) = false
      · rw [if_pos h2c]
        rw [ih _ _ v (by rw [List.length_set]; exact h2c.1)]
        apply ms_exchange (heap.getD pos default)
          (heap.getD (2 * pos + 2) default) v _ _ _ (↑heap)
        · exact ms_set heap pos _ hpos
        · exact ms_set heap pos v hpos
        · have hcl : 2 * pos + 2 <
              (heap.set pos (heap.getD (2 * pos + 2) default)).length := by
            rw [List.length_set]
            exact h2c.1
          have hx := ms_set (heap.set pos (heap.getD (2 * pos + 2) default))
            (2 * pos + 2) v hcl
          rw [getD_set_ne _ _ _ _ (show pos ≠ 2 * pos + 2 by omega)] at hx
          exact hx
      · rw [if_neg h2c]
        rw [ih _ _ v (by rw [List.length_set]; exact hg)]
        apply ms_exchange (heap.getD pos default)
          (heap.getD (2 * pos + 1) default) v _ _ _ (↑heap)
        · exact ms_set heap pos _ hpos
        · exact ms_set heap pos v hpos
        · have hcl : 2 * pos + 1 <
              (heap.set pos (heap.getD (2 * pos + 1) default)).length := by
            rw [List.length_set]
            exact hg
          have hx := ms_set (heap.set pos (heap.getD (2 * pos + 1) default))
            (2 * pos + 1) v hcl
          rw [getD_set_ne _ _ _ _ (show pos ≠ 2 * pos + 1 by omega)] at hx
          exact hx
    · rw [if_neg hg]

theorem siftupLoop_pos_lt (fuel : Nat) :
    ∀ (heap : List Task) (pos : Nat), pos < heap.length →
    (siftupLoop fuel heap pos).2 < heap.length := by
  induction fuel with
  | zero =>
    intro heap pos h
    rw [siftupLoop]
    exact h
  | succ fuel ih =>
    intro heap pos hpos
    rw [siftupLoop]
    by_cases hg : 2 * pos + 1 < heap.length
    · rw [if_pos hg]
      by_cases h2c : 2 * pos + 2 < heap.length ∧
          taskLt (heap.getD (2 * pos + 1) default)
            (heap.getD (2 * pos + 2) default) = false
      · rw [if_pos h2c]
        have := ih (heap.set pos (heap.getD (2 * pos + 2) default))
          (2 * pos + 2) (by rw [List.length_set]; exact h2c.1)
        rw [List.length_set] at this
        exact this
      · rw [if_neg h2c]
        have := ih (heap.set pos (heap.getD (2 * pos + 1) default))
          (2 * pos + 1) (by rw [List.length_set]; exact hg)
        rw [List.length_set] at this
        exact this
    · rw [if_neg hg]
      exact hpos

theorem siftup_ms (heap : List Task) (hpos : 0 < heap.length) :
    (↑(siftup heap 0) : Multiset Task) = ↑heap := by
  have hq : (siftupLoop heap.length heap 0).2 < heap.length :=
    siftupLoop_pos_lt heap.length heap 0 hpos
  have hlen1 : (siftupLoop heap.length heap 0).1.length = heap.length :=
    siftupLoop_length _ _ _
  unfold siftup siftdownFrom
  rw [getD_set_self _ _ _ (by rw [hlen1]; exact hq)]
  rw [siftdownLoop_ms _ _ _ _ _ (by rw [List.length_set, hlen1]; exact hq)]
  rw [List.set_set]
  rw [siftupLoop_ms heap.length heap 0 _ hpos]
  exact (Multiset.cons_inj_right (heap.getD 0 default)).mp
    (ms_set heap 0 (heap.getD 0 default) hpos)

theorem ms_concat (A : List Task) (y : Task) :
    (↑(A ++ [y]) : Multiset Task) = y ::ₘ ↑A := by
  induction A with
  | nil => rfl
  | cons x xs ih =>
    show (↑(x :: (xs ++ [y])) : Multiset Task) = y ::ₘ ↑(x :: xs)
    rw [← Multiset.cons_coe, ← Multiset.cons_coe, ih]
    exact Multiset.cons_swap x y ↑xs

theorem heappush_ms (l : List Task) (x : Task) :
    (↑(heappush l x) : Multiset Task) = x ::ₘ ↑l := by
  unfold heappush siftdownFrom
  rw [getD_append_self]
  rw [siftdownLoop_ms _ _ _ _ _ (by simp)]
  have hset : ((l ++ [x]).set l.length x : Multiset Task) = ↑(l ++ [x]) := by
    apply (Multiset.cons_inj_right x).mp
    have hx := ms_set (l ++ [x]) l.length x (by simp)
    rw [getD_append_self] at hx
    exact hx
  rw [hset, ms_concat]

theorem heappop_ms (l : List Task) (t : Task) (rest : List Task)
    (h : heappop l = some (t, rest)) :
    (↑l : Multiset Task) = t ::ₘ ↑rest := by
  unfold heappop at h
  match l with
  | [] => exact absurd h (by simp)
  | a :: l2 =>
    simp only at h
    split at h
    · rename_i heq
      simp only [Option.some.injEq, Prod.mk.injEq] at h
      have hl2 : l2 = [] := by
        have hlen := congrArg List.length heq
        simp at hlen
        exact hlen
      subst hl2
      rw [← h.2, ← h.1]
      rfl
    · rename_i x xs heq
      simp only [Option.some.injEq, Prod.mk.injEq] at h
      have hpos : 0 < ((a :: l2).dropLast).length := by
        rw [heq]
        simp
      have hms := siftup_ms
        (((a :: l2).dropLast).set 0 ((a :: l2).getD ((a :: l2).length - 1) default))
        (by rw [List.length_set]; exact hpos)
      rw [h.2] at hms
      have hset := ms_set ((a :: l2).dropLast) 0
        ((a :: l2).getD ((a :: l2).length - 1) default) hpos
      calc (↑(a :: l2) : Multiset Task)
          = ↑((a :: l2).dropLast ++ [(a :: l2).getLast (by simp)]) := by
            rw [List.dropLast_append_getLast]
        _ = (a :: l2).getLast (by simp) ::ₘ ↑((a :: l2).dropLast) := ms_concat _ _
        _ = (a :: l2).getD ((a :: l2).length - 1) default ::ₘ
              ↑((a :: l2).dropLast) := by rw [getD_last]
        _ = ((a :: l2).dropLast).getD 0 default ::ₘ
              ↑(((a :: l2).dropLast).set 0
                ((a :: l2).getD ((a :: l2).length - 1) default)) := hset.symm
        _ = t ::ₘ ↑rest := by rw [h.1, hms]

/-! ## Draining the queue -/

theorem heappop_none_iff {heap : List Task} :
    heappop heap = none ↔ heap = [] := by
  cases heap with
  | nil => simp [heappop]
  | cons a l =>
    unfold heappop
    simp only
    constructor
    · intro h
      split at h <;> simp at h
    · intro h
      simp at h

theorem popAllFuel_ms (fuel : Nat) :
    ∀ (heap : List Task), heap.length ≤ fuel →
    (↑(popAllFuel fuel heap) : Multiset Task) = ↑heap := by
  induction fuel with
  | zero =>
    intro heap hlen
    have : heap = [] := by
      cases heap with
      | nil => rfl
      | cons a l => simp at hlen
    subst this
    rfl
  | succ fuel ih =>
    intro heap hlen
    rw [popAllFuel]
    cases hp : heappop heap with
    | none =>
      have : heap = [] := heappop_none_iff.mp hp
      subst this
      rfl
    | some pr =>
      obtain ⟨t, rest⟩ := pr
      simp only
      rw [← Multiset.cons_coe]
      have hrl := heappop_length heap t rest hp
      rw [ih rest (by omega)]
      rw [heappop_ms heap t rest hp]

theorem popAll_ms (heap : List Task) :
    (↑(popAll heap) : Multiset Task) = ↑heap :=
  popAllFuel_ms heap.length heap (Nat.le_refl _)

theorem popAllFuel_sorted (fuel : Nat) :
    ∀ (heap : List Task), heap.length ≤ fuel → heapInv heap →
    List.Pairwise (fun a b => a.priority ≤ b.priority)
      (popAllFuel fuel heap) := by
  induction fuel with
  | zero =>
    intro heap _ _
    rw [popAllFuel]
    exact List.Pairwise.nil
  | succ fuel ih =>
    intro heap hlen hInv
    rw [popAllFuel]
    cases hp : heappop heap with
    | none => exact List.Pairwise.nil
    | some pr =>
      obtain ⟨t, rest⟩ := pr
      simp only
      rw [List.pairwise_cons]
      have hrl := heappop_length heap t rest hp
      constructor
      · intro u hu
        have hums : u ∈ (↑(popAllFuel fuel rest) : Multiset Task) :=
          Multiset.mem_coe.mpr hu
        rw [popAllFuel_ms fuel rest (by omega)] at hums
        have huheap : u ∈ heap := by
          have hm : u ∈ (↑heap : Multiset Task) := by
            rw [heappop_ms heap t rest hp]
            exact Multiset.mem_cons_of_mem hums
          exact Multiset.mem_coe.mp hm
        obtain ⟨j, hjl, hju⟩ := List.getElem_of_mem huheap
        have hmin := heappop_min heap t rest hp hInv j hjl
        rw [getD_over heap j hjl] at hmin
        rw [List.get_eq_getElem, hju] at hmin
        exact hmin
      · exact ih rest (by omega) (heapInv_pop heap t rest hp hInv)

theorem popAll_sorted (heap : List Task) (hInv : heapInv heap) :
    List.Pairwise (fun a b => a.priority ≤ b.priority) (popAll heap) :=
  popAllFuel_sorted heap.length heap (Nat.le_refl _) hInv

theorem pushAll_inv (ts : List Task) :
    ∀ (h : List Task), heapInv h → heapInv (pushAll h ts) := by
  induction ts with
  | nil => exact fun h hi => hi
  | cons t ts ih =>
    intro h hi
    exact ih (heappush h t) (heapInv_push h t hi)

theorem pushAll_ms (ts : List Task) :
    ∀ (h : List Task),
    (↑(pushAll h ts) : Multiset Task) = ↑h + ↑ts := by
  induction ts with
  | nil =>
    intro h
    simp [pushAll]
  | cons t ts ih =>
    intro h
    show (↑(pushAll (heappush h t) ts) : Multiset Task) = ↑h + ↑(t :: ts)
    rw [ih (heappush h t), heappush_ms]
    rw [← Multiset.cons_coe, Multiset.cons_add, Multiset.add_cons]

theorem drainAllFuel_fst (fuel : Nat) :
    ∀ (st : TMState), (drainAllFuel fuel st).1 = popAllFuel fuel st.task_queue := by
  induction fuel with
  | zero =>
    intro st
    rfl
  | succ fuel ih =>
    intro st
    rw [drainAllFuel, popAllFuel]
    unfold get_next_task
    cases hp : heappop st.task_queue with
    | none => rfl
    | some pr =>
      obtain ⟨t, rest⟩ := pr
      simp only
      rw [ih]

theorem drainAll_fst (st : TMState) :
    (drainAll st).1 = popAll st.task_queue :=
  drainAllFuel_fst st.task_queue.length st

/-! ## Scheduler-level lemmas -/

theorem add_task_queue (st : TMState) (td : TaskData)
    (h : optStrTruthy td.scheduled_at = false) :
    (add_task st td).2 =
      { st with task_queue := heappush st.task_queue (taskOfData td) } := by
  simp [add_task, taskOfData, h]

theorem addAll_queue (tds : List TaskData) :
    ∀ (st : TMState), (∀ td ∈ tds, optStrTruthy td.scheduled_at = false) →
    addAll st tds =
      { st with task_queue := pushAll st.task_queue (tds.map taskOfData) } := by
  induction tds with
  | nil =>
    intro st _
    rfl
  | cons td tds ih =>
    intro st hall
    show addAll (add_task st td).2 tds = _
    rw [add_task_queue st td (hall td (by simp))]
    rw [ih _ (fun td2 h2 => hall td2 (by simp [h2]))]
    rfl

theorem set_append_last (h : List Task) (x : Task) :
    (h ++ [x]).set h.length x = h ++ [x] := by
  induction h with
  | nil => rfl
  | cons a h2 ih =>
    show a :: ((h2 ++ [x]).set h2.length x) = a :: (h2 ++ [x])
    rw [ih]

/-- Pushing onto a heap of equal-priority tasks appends at the end. -/
theorem heappush_equal (h : List Task) (x : Task)
    (hall : ∀ u ∈ h, u.priority = x.priority) :
    heappush h x = h ++ [x] := by
  unfold heappush siftdownFrom
  rw [getD_append_self]
  cases h with
  | nil => rfl
  | cons a h2 =>
    rw [show (a :: h2).length = h2.length + 1 from rfl]
    rw [siftdownLoop]
    rw [if_pos (show 0 < h2.length + 1 by omega)]
    have hidx : (h2.length + 1 - 1) / 2 < (a :: h2).length := by
      simp
      omega
    have hmem : ((a :: h2) ++ [x]).getD ((h2.length + 1 - 1) / 2) default
        ∈ a :: h2 := by
      rw [getD_append_left _ _ _ hidx, getD_over _ _ hidx]
      exact List.get_mem _ _ _
    have hplt : taskLt x
        (((a :: h2) ++ [x]).getD ((h2.length + 1 - 1) / 2) default) = false := by
      apply taskLt_false_iff.mpr
      rw [hall _ hmem]
    rw [if_neg (by simp at hplt; simp [hplt])]
    exact set_append_last (a :: h2) x

/-- Pushing a sequence of equal-priority tasks onto an equal-priority heap
keeps them in insertion order. -/
theorem pushAll_equal (ts : List Task) (c : Nat)
    (hall : ∀ u ∈ ts, u.priority = c) :
    ∀ (h : List Task), (∀ u ∈ h, u.priority = c) →
    pushAll h ts = h ++ ts := by
  induction ts with
  | nil =>
    intro h _
    simp [pushAll]
  | cons t ts ih =>
    intro h hh
    show pushAll (heappush h t) ts = h ++ t :: ts
    rw [heappush_equal h t
      (fun u hu => by rw [hh u hu, hall t (by simp)])]
    have hmem : ∀ u ∈ h ++ [t], u.priority = c := by
      intro u hu
      rcases List.mem_append.mp hu with h1 | h1
      · exact hh u h1
      · simp at h1
        subst h1
        exact hall u (by simp)
    rw [ih (fun u hu => hall u (by simp [hu])) (h ++ [t]) hmem]
    simp

/-- The first task `heappop` returns is the head of the heap list. -/
theorem heappop_head (a : Task) (l : List Task) :
    (heappop (a :: l)).map Prod.fst = some a := by
  unfold heappop
  simp only
  split
  · rename_i heq
    have hl : l = [] := by
      have hlen := congrArg List.length heq
      simp at hlen
      exact hlen
    subst hl
    rfl
  · rename_i x xs heq
    have h0 : 0 < (a :: l).length - 1 := by
      have hlen := congrArg List.length heq
      simp at hlen
      simp
      omega
    simp only [Option.map_some']
    rw [getD_dropLast _ _ h0]
    rw [List.getD_cons_zero]

/-! ## Dictionary lemmas -/

theorem lookupKey_setKey_self {α : Type} (l : List (String × α)) (k : String)
    (v : α) : lookupKey (setKey l k v) k = some v := by
  induction l with
  | nil => simp [setKey, lookupKey]
  | cons kv rest ih =>
    obtain ⟨k2, w⟩ := kv
    by_cases h : k2 = k
    · simp [setKey, lookupKey, h]
    · simp [setKey, lookupKey, h, ih]

theorem lookupKey_setKey_ne {α : Type} (l : List (String × α)) (k k2 : String)
    (v : α) (h : k ≠ k2) :
    lookupKey (setKey l k v) k2 = lookupKey l k2 := by
  induction l with
  | nil => simp [setKey, lookupKey, h]
  | cons kv rest ih =>
    obtain ⟨k3, w⟩ := kv
    by_cases h3 : k3 = k
    · subst h3
      simp [setKey, lookupKey, h]
    · simp [setKey, lookupKey, h3, ih]

theorem setKey_setKey {α : Type} (l : List (String × α)) (k : String)
    (v w : α) : setKey (setKey l k v) k w = setKey l k w := by
  induction l with
  | nil => simp [setKey]
  | cons kv rest ih =>
    obtain ⟨k3, u⟩ := kv
    by_cases h3 : k3 = k
    · simp [setKey, h3]
    · simp [setKey, h3, ih]

theorem keys_removeKey_not_mem (l : List (String × Task)) (k : String)
    (h : (keysOf l).Nodup) : k ∉ keysOf (removeKey l k) := by
  induction l with
  | nil => simp [removeKey, keysOf]
  | cons kv rest ih =>
    obtain ⟨k2, v⟩ := kv
    simp only [keysOf, List.map_cons, List.nodup_cons] at h
    by_cases h2 : k2 = k
    · subst h2
      simp only [removeKey, if_pos rfl]
      exact h.1
    · simp only [removeKey, if_neg h2, keysOf, List.map_cons, List.mem_cons]
      intro hc
      rcases hc with hc | hc
      · exact h2 hc.symm
      · exact ih h.2 hc

theorem lookupKey_nil {α : Type} (k : String) :
    lookupKey ([] : List (String × α)) k = none := rfl

theorem setKey_fresh {α : Type} (l : List (String × α)) (k : String) (v : α)
    (h : lookupKey l k = none) : setKey l k v = l ++ [(k, v)] := by
  induction l with
  | nil => rfl
  | cons kv rest ih =>
    obtain ⟨k2, w⟩ := kv
    simp only [lookupKey] at h
    by_cases h2 : k2 = k
    · simp [h2] at h
    · simp only [setKey, if_neg h2, List.cons_append]
      rw [ih (by simpa [h2] using h)]

theorem lookupKey_setKey_append {α : Type} (l : List (String × α))
    (k k2 : String) (v : α) (hne : k ≠ k2) (h : lookupKey l k2 = none) :
    lookupKey (setKey l k v) k2 = none := by
  rw [lookupKey_setKey_ne l k k2 v hne]
  exact h

theorem foldl_setKey_fresh {α : Type} (l : List (String × α)) :
    ∀ (acc : List (String × α)),
    (∀ p ∈ l, lookupKey acc p.1 = none) → (l.map Prod.fst).Nodup →
    l.foldl (fun a kv => setKey a kv.1 kv.2) acc = acc ++ l := by
  induction l with
  | nil =>
    intro acc _ _
    simp
  | cons kv rest ih =>
    intro acc hfresh hnd
    obtain ⟨k, v⟩ := kv
    simp only [List.map_cons, List.nodup_cons] at hnd
    show rest.foldl (fun a kv => setKey a kv.1 kv.2) (setKey acc k v) =
      acc ++ (k, v) :: rest
    rw [ih (setKey acc k v) ?fresh hnd.2]
    · rw [setKey_fresh acc k v (hfresh (k, v) (by simp))]
      simp
    case fresh =>
      intro p hp
      apply lookupKey_setKey_append
      · intro he
        exact hnd.1 (he ▸ List.mem_map_of_mem Prod.fst hp)
      · exact hfresh p (by simp [hp])

theorem popAll_subset (q : List Task) (u : Task) (hu : u ∈ popAll q) :
    u ∈ q := by
  have hm : u ∈ (↑(popAll q) : Multiset Task) := Multiset.mem_coe.mpr hu
  rw [popAll_ms] at hm
  exact Multiset.mem_coe.mp hm

/-! ## Orchestrator state helper lemmas -/

theorem modifyTask_known (st : OrchState) (task_id : String) (f : OTask → OTask)
    (t : OTask) (h : lookupKey st task_id = some t) :
    modifyTask st task_id f = setKey st task_id (f t) := by
  unfold modifyTask
  rw [h]

theorem updateTaskStatus_known (st : OrchState) (task_id status now : String)
    (t : OTask) (h : lookupKey st task_id = some t) :
    updateTaskStatus st task_id status now =
      setKey st task_id { t with status := status, updated_at := now } :=
  modifyTask_known st task_id _ t h

theorem updateTaskProgress_known (st : OrchState) (task_id : String)
    (progress : Nat) (now : String) (t : OTask)
    (h : lookupKey st task_id = some t) :
    updateTaskProgress st task_id progress now =
      setKey st task_id { t with progress := progress, updated_at := now } :=
  modifyTask_known st task_id _ t h

theorem logTask_known (st : OrchState) (task_id now message : String)
    (t : OTask) (h : lookupKey st task_id = some t) :
    logTask st task_id now message =
      setKey st task_id
        { t with logs := t.logs ++ ["[" ++ now ++ "] " ++ message] } :=
  modifyTask_known st task_id _ t h

/-- `modifyTask` with a field update that touches neither `result` nor
`error` leaves both projections of every registry entry unchanged. -/
theorem modify_preserves_re (st : OrchState) (id : String) (f : OTask → OTask)
    (hf : ∀ t, (f t).result = t.result ∧ (f t).error = t.error)
    (tid : String) :
    (lookupKey (modifyTask st id f) tid).map OTask.result =
      (lookupKey st tid).map OTask.result ∧
    (lookupKey (modifyTask st id f) tid).map OTask.error =
      (lookupKey st tid).map OTask.error := by
  unfold modifyTask
  cases h : lookupKey st id with
  | none => exact ⟨rfl, rfl⟩
  | some t =>
    by_cases htid : id = tid
    · subst htid
      rw [lookupKey_setKey_self, h]
      simp [(hf t).1, (hf t).2]
    · rw [lookupKey_setKey_ne _ _ _ _ htid]
      exact ⟨rfl, rfl⟩

/-- One-sided variant: a field update preserving `result` preserves the
`result` projection of every entry. -/
theorem modify_preserves_result (st : OrchState) (id : String)
    (f : OTask → OTask) (hf : ∀ t, (f t).result = t.result) (tid : String) :
    (lookupKey (modifyTask st id f) tid).map OTask.result =
      (lookupKey st tid).map OTask.result := by
  unfold modifyTask
  cases h : lookupKey st id with
  | none => rfl
  | some t =>
    by_cases htid : id = tid
    · subst htid
      rw [lookupKey_setKey_self, h]
      simp [hf t]
    · rw [lookupKey_setKey_ne _ _ _ _ htid]

/-- One-sided variant: a field update preserving `error` preserves the
`error` projection of every entry. -/
theorem modify_preserves_error (st : OrchState) (id : String)
    (f : OTask → OTask) (hf : ∀ t, (f t).error = t.error) (tid : String) :
    (lookupKey (modifyTask st id f) tid).map OTask.error =
      (lookupKey st tid).map OTask.error := by
  unfold modifyTask
  cases h : lookupKey st id with
  | none => rfl
  | some t =>
    by_cases htid : id = tid
    · subst htid
      rw [lookupKey_setKey_self, h]
      simp [hf t]
    · rw [lookupKey_setKey_ne _ _ _ _ htid]

theorem status_re (st : OrchState) (id s now : String) (tid : String) :
    (lookupKey (updateTaskStatus st id s now) tid).map OTask.result =
      (lookupKey st tid).map OTask.result ∧
    (lookupKey (updateTaskStatus st id s now) tid).map OTask.error =
      (lookupKey st tid).map OTask.error := by
  unfold updateTaskStatus
  exact modify_preserves_re st id
    (fun t => { t with status := s, updated_at := now })
    (fun t => ⟨rfl, rfl⟩) tid

theorem progress_re (st : OrchState) (id : String) (p : Nat) (now : String)
    (tid : String) :
    (lookupKey (updateTaskProgress st id p now) tid).map OTask.result =
      (lookupKey st tid).map OTask.result ∧
    (lookupKey (updateTaskProgress st id p now) tid).map OTask.error =
      (lookupKey st tid).map OTask.error := by
  unfold updateTaskProgress
  exact modify_preserves_re st id
    (fun t => { t with progress := p, updated_at := now })
    (fun t => ⟨rfl, rfl⟩) tid

theorem log_re (st : OrchState) (id now m : String) (tid : String) :
    (lookupKey (logTask st id now m) tid).map OTask.result =
      (lookupKey st tid).map OTask.result ∧
    (lookupKey (logTask st id now m) tid).map OTask.error =
      (lookupKey st tid).map OTask.error := by
  unfold logTask
  exact modify_preserves_re st id
    (fun t => { t with logs := t.logs ++ ["[" ++ now ++ "] " ++ m] })
    (fun t => ⟨rfl, rfl⟩) tid

/-- Every phase handler leaves the `result` and `error` fields of every
registry entry unchanged: handlers only write status, progress and logs. -/
theorem general_phase_re (c : Collabs) (now : String) (st : OrchState)
    (task_id tid : String) :
    (lookupKey (general_task_phase c now st task_id).2 tid).map OTask.result =
      (lookupKey st tid).map OTask.result ∧
    (lookupKey (general_task_phase c now st task_id).2 tid).map OTask.error =
      (lookupKey st tid).map OTask.error := by
  unfold general_task_phase
  cases hx : c.execute_general_task
      ((lookupKey (logTask (updateTaskStatus st task_id "in_progress" now)
        task_id now "Processing general task") task_id).getD default) with
  | error e =>
    simp only [hx]
    exact ⟨((log_re _ _ _ _ _).1).trans (status_re _ _ _ _ _).1,
      ((log_re _ _ _ _ _).2).trans (status_re _ _ _ _ _).2⟩
  | ok r =>
    simp only [hx]
    exact ⟨((progress_re _ _ _ _ _).1).trans
        (((log_re _ _ _ _ _).1).trans (status_re _ _ _ _ _).1),
      ((progress_re _ _ _ _ _).2).trans
        (((log_re _ _ _ _ _).2).trans (status_re _ _ _ _ _).2)⟩

theorem analysis_phase_re (c : Collabs) (now : String) (st : OrchState)
    (task_id tid : String) :
    (lookupKey (execute_analysis_task c now st task_id).2 tid).map
        OTask.result = (lookupKey st tid).map OTask.result ∧
    (lookupKey (execute_analysis_task c now st task_id).2 tid).map
        OTask.error = (lookupKey st tid).map OTask.error := by
  unfold execute_analysis_task
  dsimp only
  split
  · exact ⟨((log_re _ _ _ _ _).1).trans (status_re _ _ _ _ _).1,
      ((log_re _ _ _ _ _).2).trans (status_re _ _ _ _ _).2⟩
  · exact ⟨((progress_re _ _ _ _ _).1).trans
        (((log_re _ _ _ _ _).1).trans (status_re _ _ _ _ _).1),
      ((progress_re _ _ _ _ _).2).trans
        (((log_re _ _ _ _ _).2).trans (status_re _ _ _ _ _).2)⟩

theorem deployment_phase_re (c : Collabs) (now : String) (st : OrchState)
    (task_id tid : String) :
    (lookupKey (execute_deployment_task c now st task_id).2 tid).map
        OTask.result = (lookupKey st tid).map OTask.result ∧
    (lookupKey (execute_deployment_task c now st task_id).2 tid).map
        OTask.error = (lookupKey st tid).map OTask.error := by
  unfold execute_deployment_task
  dsimp only
  split
  · split
    · exact ⟨((log_re _ _ _ _ _).1).trans (status_re _ _ _ _ _).1,
        ((log_re _ _ _ _ _).2).trans (status_re _ _ _ _ _).2⟩
    · exact ⟨((progress_re _ _ _ _ _).1).trans
          (((log_re _ _ _ _ _).1).trans (status_re _ _ _ _ _).1),
        ((progress_re _ _ _ _ _).2).trans
          (((log_re _ _ _ _ _).2).trans (status_re _ _ _ _ _).2)⟩
  · exact ⟨((log_re _ _ _ _ _).1).trans (status_re _ _ _ _ _).1,
      ((log_re _ _ _ _ _).2).trans (status_re _ _ _ _ _).2⟩

theorem development_phase_re (c : Collabs) (now : String) (st : OrchState)
    (task_id tid : String) :
    (lookupKey (execute_development_task c now st task_id).2 tid).map
        OTask.result = (lookupKey st tid).map OTask.result ∧
    (lookupKey (execute_development_task c now st task_id).2 tid).map
        OTask.error = (lookupKey st tid).map OTask.error := by
  unfold execute_development_task
  dsimp only
  split
  · exact ⟨((log_re _ _ _ _ _).1).trans (status_re _ _ _ _ _).1,
      ((log_re _ _ _ _ _).2).trans (status_re _ _ _ _ _).2⟩
  · split
    · split
      · split
        · exact ⟨((log_re _ _ _ _ _).1).trans (((progress_re _ _ _ _ _).1).trans
              (((log_re _ _ _ _ _).1).trans (status_re _ _ _ _ _).1)),
            ((log_re _ _ _ _ _).2).trans (((progress_re _ _ _ _ _).2).trans
              (((log_re _ _ _ _ _).2).trans (status_re _ _ _ _ _).2))⟩
        · split
          · exact ⟨((log_re _ _ _ _ _).1).trans (((progress_re _ _ _ _ _).1).trans
                (((log_re _ _ _ _ _).1).trans (status_re _ _ _ _ _).1)),
              ((log_re _ _ _ _ _).2).trans (((progress_re _ _ _ _ _).2).trans
                (((log_re _ _ _ _ _).2).trans (status_re _ _ _ _ _).2))⟩
          · exact ⟨((progress_re _ _ _ _ _).1).trans
                (((log_re _ _ _ _ _).1).trans (((progress_re _ _ _ _ _).1).trans
                  (((log_re _ _ _ _ _).1).trans (status_re _ _ _ _ _).1))),
              ((progress_re _ _ _ _ _).2).trans
                (((log_re _ _ _ _ _).2).trans (((progress_re _ _ _ _ _).2).trans
                  (((log_re _ _ _ _ _).2).trans (status_re _ _ _ _ _).2)))⟩
      · exact ⟨((log_re _ _ _ _ _).1).trans (((progress_re _ _ _ _ _).1).trans
            (((log_re _ _ _ _ _).1).trans (status_re _ _ _ _ _).1)),
          ((log_re _ _ _ _ _).2).trans (((progress_re _ _ _ _ _).2).trans
            (((log_re _ _ _ _ _).2).trans (status_re _ _ _ _ _).2))⟩
    · exact ⟨((progress_re _ _ _ _ _).1).trans (((progress_re _ _ _ _ _).1).trans
          (((log_re _ _ _ _ _).1).trans (status_re _ _ _ _ _).1)),
        ((progress_re _ _ _ _ _).2).trans (((progress_re _ _ _ _ _).2).trans
          (((log_re _ _ _ _ _).2).trans (status_re _ _ _ _ _).2))⟩

/-- The type-based dispatch preserves `result` and `error` on every
registry entry, whichever phase handler it selects. -/
theorem dispatch_re (c : Collabs) (now : String) (st : OrchState)
    (task_id tid : String) (tt : String) :
    (lookupKey (if tt = "website_creation" ∨ tt = "app_development" then
        execute_development_task c now st task_id
      else if tt = "data_analysis" then
        execute_analysis_task c now st task_id
      else if tt = "deployment" then
        execute_deployment_task c now st task_id
      else
        general_task_phase c now st task_id).2 tid).map OTask.result =
      (lookupKey st tid).map OTask.result ∧
    (lookupKey (if tt = "website_creation" ∨ tt = "app_development" then
        execute_development_task c now st task_id
      else if tt = "data_analysis" then
        execute_analysis_task c now st task_id
      else if tt = "deployment" then
        execute_deployment_task c now st task_id
      else
        general_task_phase c now st task_id).2 tid).map OTask.error =
      (lookupKey st tid).map OTask.error := by
  split
  · exact development_phase_re c now st task_id tid
  · split
    · exact analysis_phase_re c now st task_id tid
    · split
      · exact deployment_phase_re c now st task_id tid
      · exact general_phase_re c now st task_id tid

/-- `failTask` preserves the `result` field of every registry entry. -/
theorem failTask_result (st : OrchState) (id e now : String) (tid : String) :
    (lookupKey (failTask st id e now).2 tid).map OTask.result =
      (lookupKey st tid).map OTask.result := by
  unfold failTask
  refine ((log_re _ _ _ _ _).1).trans ?_
  refine Eq.trans ?_ (status_re st id "failed" now tid).1
  exact modify_preserves_result _ id (fun t => { t with error := some e })
    (fun t => rfl) tid

/-- One call to `execute_task` either preserves the `result` field of
every registry entry (all failure paths, which only set `error`) or
preserves the `error` field of every entry (the success path, which only
sets `result`). -/
theorem execute_task_result_or_error (c : Collabs) (now : String)
    (st : OrchState) (task_id tid : String) :
    (lookupKey (execute_task c now st task_id).2 tid).map OTask.result =
      (lookupKey st tid).map OTask.result ∨
    (lookupKey (execute_task c now st task_id).2 tid).map OTask.error =
      (lookupKey st tid).map OTask.error := by
  unfold execute_task
  cases hl : lookupKey st task_id with
  | none => exact Or.inl rfl
  | some t0 =>
    dsimp only
    split
    · left
      exact (failTask_result _ _ _ _ _).trans
        (((log_re _ _ _ _ _).1).trans (status_re _ _ _ _ _).1)
    · rename_i pl hpleq
      split
      · left
        exact (failTask_result _ _ _ _ _).trans
          ((modify_preserves_result _ _ (fun t => { t with plan := some pl })
              (fun t => rfl) _).trans
            (((log_re _ _ _ _ _).1).trans (status_re _ _ _ _ _).1))
      · rename_i tt hparse
        split
        · rename_i e st2 heq
          left
          have hd := (dispatch_re c now (modifyTask (logTask (updateTaskStatus st task_id "planning" now)
                task_id now "Starting planning and analysis phase") task_id
                (fun t => { t with plan := some pl })) task_id tid tt).1
          rw [heq] at hd
          exact (failTask_result _ _ _ _ _).trans
            (hd.trans ((modify_preserves_result _ _
                (fun t => { t with plan := some pl }) (fun t => rfl) _).trans
              (((log_re _ _ _ _ _).1).trans (status_re _ _ _ _ _).1)))
        · rename_i res st2 heq
          split
          · left
            have hd := (dispatch_re c now (modifyTask (logTask (updateTaskStatus st task_id "planning" now)
                task_id now "Starting planning and analysis phase") task_id
                (fun t => { t with plan := some pl })) task_id tid tt).1
            rw [heq] at hd
            exact (failTask_result _ _ _ _ _).trans
              (((log_re _ _ _ _ _).1).trans
                (hd.trans ((modify_preserves_result _ _
                    (fun t => { t with plan := some pl }) (fun t => rfl) _).trans
                  (((log_re _ _ _ _ _).1).trans (status_re _ _ _ _ _).1))))
          · right
            have hd := (dispatch_re c now (modifyTask (logTask (updateTaskStatus st task_id "planning" now)
                task_id now "Starting planning and analysis phase") task_id
                (fun t => { t with plan := some pl })) task_id tid tt).2
            rw [heq] at hd
            exact (modify_preserves_error _ _
                (fun t => { t with result := some res }) (fun t => rfl) _).trans
              ((status_re _ _ _ _ _).2.trans
                (((log_re _ _ _ _ _).2).trans
                  (hd.trans ((modify_preserves_error _ _
                      (fun t => { t with plan := some pl }) (fun t => rfl) _).trans
                    (((log_re _ _ _ _ _).2).trans (status_re _ _ _ _ _).2)))))

/-! ## Claim theorems -/

/-- C1: for every sequence of tasks added to a fresh manager with no due
time, draining the queue by repeated `get_next_task` calls returns all of
them (the returned tasks are exactly the added ones, as a multiset) in
non-decreasing numeric priority order — so every high-priority task is
returned before every medium-priority task still in the queue, and every
medium before every low, `high` mapping to the smallest comparison value
(high = 1 < medium = 2 < low = 3). -/
theorem C1_priority_order (tds : List TaskData)
    (hns : ∀ td ∈ tds, optStrTruthy td.scheduled_at = false) :
    List.Pairwise (fun a b => a.priority ≤ b.priority)
      (drainAll (addAll emptyTM tds)).1 ∧
    (↑(drainAll (addAll emptyTM tds)).1 : Multiset Task) =
      ↑(tds.map taskOfData) ∧
    Priority.HIGH < Priority.MEDIUM ∧ Priority.MEDIUM < Priority.LOW := by
  have hq : (addAll emptyTM tds).task_queue = pushAll [] (tds.map taskOfData) := by
    rw [addAll_queue tds emptyTM hns]
    rfl
  have hInv : heapInv (pushAll [] (tds.map taskOfData)) :=
    pushAll_inv _ [] heapInv_nil
  refine ⟨?_, ?_, by decide, by decide⟩
  · rw [drainAll_fst, hq]
    exact popAll_sorted _ hInv
  · rw [drainAll_fst, hq, popAll_ms, pushAll_ms]
    simp

/-- C1 witness: a low, a high and a medium task added in that order. -/
theorem C1_priority_order_witness :
    List.Pairwise (fun a b => a.priority ≤ b.priority)
      (drainAll (addAll emptyTM [lowTD, highTD, mediumTD "m1"])).1 ∧
    (↑(drainAll (addAll emptyTM [lowTD, highTD, mediumTD "m1"])).1 :
        Multiset Task) =
      ↑([lowTD, highTD, mediumTD "m1"].map taskOfData) ∧
    Priority.HIGH < Priority.MEDIUM ∧ Priority.MEDIUM < Priority.LOW :=
  C1_priority_order [lowTD, highTD, mediumTD "m1"] (by decide)

/-- C2 counterexample: four equal-priority tasks `a, b, c, d` added in
that order to a fresh manager are dequeued as `a, c, b, d` — `next()`
does not preserve insertion order within a priority class. -/
theorem C2_fifo_counterexample :
    ((drainAll (addAll emptyTM
        [mediumTD "a", mediumTD "b", mediumTD "c", mediumTD "d"])).1.map
          Task.id) = ["a", "c", "b", "d"] ∧
    (["a", "c", "b", "d"] : List String) ≠ ["a", "b", "c", "d"] := by
  constructor
  · rfl
  · decide

/-- C2 amended: equal-priority tasks added with no due time are each
returned exactly once (a permutation of the insertions) and the first
task returned is the first inserted, but insertion order is not preserved
beyond that — the ready queue is a binary heap over priority alone, with
no insertion-sequence tie-break. -/
theorem C2_equal_priority_drain (tds : List TaskData) (c : Nat)
    (hns : ∀ td ∈ tds, optStrTruthy td.scheduled_at = false)
    (hpr : ∀ td ∈ tds, (taskOfData td).priority = c) :
    (↑(drainAll (addAll emptyTM tds)).1 : Multiset Task) =
      ↑(tds.map taskOfData) ∧
    (drainAll (addAll emptyTM tds)).1.head? = (tds.map taskOfData).head? := by
  have hq : (addAll emptyTM tds).task_queue = pushAll [] (tds.map taskOfData) := by
    rw [addAll_queue tds emptyTM hns]
    rfl
  have hmap : ∀ u ∈ tds.map taskOfData, u.priority = c := by
    intro u hu
    obtain ⟨td, htd, rfl⟩ := List.mem_map.mp hu
    exact hpr td htd
  have hpe : pushAll [] (tds.map taskOfData) = tds.map taskOfData := by
    have hx := pushAll_equal (tds.map taskOfData) c hmap []
      (by intro u hu; simp at hu)
    simpa using hx
  constructor
  · rw [drainAll_fst, hq, popAll_ms, pushAll_ms]
    simp
  · rw [drainAll_fst, hq, hpe]
    cases hmaps : tds.map taskOfData with
    | nil => rfl
    | cons a l =>
      have hh := heappop_head a l
      unfold popAll
      rw [show (a :: l).length = l.length + 1 from rfl]
      rw [popAllFuel]
      cases hp : heappop (a :: l) with
      | none =>
        rw [hp] at hh
        simp at hh
      | some pr =>
        obtain ⟨t, rest⟩ := pr
        rw [hp] at hh
        simp at hh
        simp only [hh]
        rfl

/-- C2 amended witness: four equal-priority tasks. -/
theorem C2_equal_priority_drain_witness :
    (↑(drainAll (addAll emptyTM
        [mediumTD "a", mediumTD "b", mediumTD "c", mediumTD "d"])).1 :
        Multiset Task) =
      ↑([mediumTD "a", mediumTD "b", mediumTD "c", mediumTD "d"].map
          taskOfData) ∧
    (drainAll (addAll emptyTM
        [mediumTD "a", mediumTD "b", mediumTD "c", mediumTD "d"])).1.head? =
      ([mediumTD "a", mediumTD "b", mediumTD "c", mediumTD "d"].map
          taskOfData).head? :=
  C2_equal_priority_drain
    [mediumTD "a", mediumTD "b", mediumTD "c", mediumTD "d"] 2
    (by decide) (by decide)

/-- C10: a task whose priority string is not exactly `low`, `medium` or
`high` — including an absent priority — is assigned the medium numeric
priority (2), and `add_task` treats it exactly as the same task data with
priority `medium`. -/
theorem C10_unknown_priority_medium (st : TMState) (td : TaskData)
    (hp : ∀ s, td.priority = some s →
      s ≠ "low" ∧ s ≠ "medium" ∧ s ≠ "high") :
    (taskOfData td).priority = Priority.MEDIUM ∧
    add_task st td = add_task st { td with priority := some "medium" } := by
  have htask : taskOfData td = taskOfData { td with priority := some "medium" } := by
    unfold taskOfData priorityOfString
    cases hpp : td.priority with
    | none => simp
    | some s =>
      obtain ⟨h1, h2, h3⟩ := hp s hpp
      simp [h1, h2, h3]
  constructor
  · rw [htask]
    rfl
  · unfold add_task
    rw [htask]

/-- C10 witness: an unrecognized priority string. -/
theorem C10_unknown_priority_medium_witness :
    (taskOfData { mediumTD "u1" with priority := some "URGENT" }).priority =
      Priority.MEDIUM ∧
    add_task emptyTM { mediumTD "u1" with priority := some "URGENT" } =
      add_task emptyTM
        { { mediumTD "u1" with priority := some "URGENT" } with
          priority := some "medium" } :=
  C10_unknown_priority_medium emptyTM
    { mediumTD "u1" with priority := some "URGENT" }
    (fun s hs => by
      rw [show ({ mediumTD "u1" with priority := some "URGENT" } :
        TaskData).priority = some "URGENT" from rfl] at hs
      have hsu : s = "URGENT" := (Option.some.inj hs).symm
      subst hsu
      decide)

/-- C4: `execute_task` on an id absent from the registry raises a
"not found" error and returns the registry unchanged (no entry added,
removed or mutated). -/
theorem C4_execute_unknown_id (c : Collabs) (now : String) (st : OrchState)
    (task_id : String) (h : lookupKey st task_id = none) :
    execute_task c now st task_id =
      (.error ("Task " ++ task_id ++ " not found"), st) := by
  unfold execute_task
  rw [h]

/-- C4 witness: an id absent from a one-task registry. -/
theorem C4_execute_unknown_id_witness :
    execute_task okCollabs "t9" generalState "missing" =
      (.error ("Task " ++ "missing" ++ " not found"), generalState) :=
  C4_execute_unknown_id okCollabs "t9" generalState "missing" rfl

/-- C6: `cancel` on a scheduled id removes it and returns true — with
well-formed buckets the id is afterwards absent from the scheduled bucket
and, unless the same id is separately sitting in the ready queue, no
subsequent `next()` ever returns it; `cancel` on an id that is (only)
active returns false and changes nothing; and in every other case,
including a task sitting in the ready queue, it returns false and changes
nothing. -/
theorem C6_cancel_semantics (st : TMState) (task_id : String) :
    (hasKey st.scheduled_tasks task_id = true →
      cancel_task st task_id =
        (true,
          { st with scheduled_tasks := removeKey st.scheduled_tasks task_id }) ∧
      ((keysOf st.scheduled_tasks).Nodup →
        task_id ∉ keysOf (cancel_task st task_id).2.scheduled_tasks) ∧
      (task_id ∉ st.task_queue.map Task.id →
        ∀ u ∈ (drainAll (cancel_task st task_id).2).1, u.id ≠ task_id)) ∧
    (hasKey st.scheduled_tasks task_id = false →
      hasKey st.active_tasks task_id = true →
      cancel_task st task_id = (false, st)) ∧
    (hasKey st.scheduled_tasks task_id = false →
      hasKey st.active_tasks task_id = false →
      cancel_task st task_id = (false, st)) := by
  refine ⟨?_, ?_, ?_⟩
  · intro hsched
    have hc : cancel_task st task_id =
        (true,
          { st with scheduled_tasks := removeKey st.scheduled_tasks task_id }) := by
      unfold cancel_task
      rw [if_pos hsched]
    refine ⟨hc, ?_, ?_⟩
    · intro hnd
      rw [hc]
      exact keys_removeKey_not_mem st.scheduled_tasks task_id hnd
    · intro hnq u hu
      rw [hc] at hu
      rw [drainAll_fst] at hu
      have huq : u ∈ st.task_queue := popAll_subset _ u hu
      intro heq
      exact hnq (heq ▸ List.mem_map_of_mem Task.id huq)
  · intro hs ha
    unfold cancel_task
    rw [if_neg (by simp [hs]), if_pos ha]
  · intro hs ha
    unfold cancel_task
    rw [if_neg (by simp [hs]), if_neg (by simp [ha])]

/-- C6 witness: a scheduled task is cancelled; an active task and a
queued-only task are refused with the state unchanged. -/
theorem C6_cancel_semantics_witness :
    cancel_task schedTM "s1" =
      (true,
        { schedTM with
            scheduled_tasks := removeKey schedTM.scheduled_tasks "s1" }) ∧
    cancel_task sampleTM "a1" = (false, sampleTM) ∧
    cancel_task sampleTM "q1" = (false, sampleTM) :=
  ⟨((C6_cancel_semantics schedTM "s1").1 rfl).1,
    (C6_cancel_semantics sampleTM "a1").2.1 rfl rfl,
    (C6_cancel_semantics sampleTM "q1").2.2 rfl rfl⟩

/-- C7: `complete` and `fail` on an id not in the active bucket are
no-ops: no error, and the whole store state is unchanged. -/
theorem C7_complete_fail_noop (st : TMState) (task_id : String)
    (h : lookupKey st.active_tasks task_id = none) (result : Val)
    (err now : String) :
    complete_task st task_id result now = st ∧
    fail_task st task_id err now = st := by
  unfold complete_task fail_task
  rw [h]
  exact ⟨rfl, rfl⟩

/-- C7 witness: an id absent from the active bucket. -/
theorem C7_complete_fail_noop_witness :
    complete_task sampleTM "zz" (.str "r") "t1" = sampleTM ∧
    fail_task sampleTM "zz" "boom" "t1" = sampleTM :=
  C7_complete_fail_noop sampleTM "zz" rfl (.str "r") "boom" "t1"

/-- C8 counterexample: exporting a store holding one queued and one active
task and re-importing into a fresh store loses both buckets — the queued
task is never exported and the active bucket, though exported, is never
restored. -/
theorem C8_roundtrip_counterexample :
    (import_tasks emptyTM (export_tasks sampleTM)).active_tasks = [] ∧
    (import_tasks emptyTM (export_tasks sampleTM)).task_queue = [] ∧
    sampleTM.active_tasks ≠ [] ∧ sampleTM.task_queue ≠ [] := by
  refine ⟨rfl, rfl, ?_, ?_⟩ <;> simp [sampleTM]

/-- C8 amended: the export/import round trip into a fresh store preserves
the scheduled, completed and failed buckets exactly (hence their ids,
bucket membership, priorities and scheduled times), while the queued and
active buckets of the fresh store are empty: queued tasks are not
exported, and active tasks are exported but never re-imported. -/
theorem C8_roundtrip_partial (st : TMState)
    (h1 : (st.scheduled_tasks.map Prod.fst).Nodup)
    (h2 : (st.completed_tasks.map Prod.fst).Nodup)
    (h3 : (st.failed_tasks.map Prod.fst).Nodup) :
    (import_tasks emptyTM (export_tasks st)).scheduled_tasks =
      st.scheduled_tasks ∧
    (import_tasks emptyTM (export_tasks st)).completed_tasks =
      st.completed_tasks ∧
    (import_tasks emptyTM (export_tasks st)).failed_tasks = st.failed_tasks ∧
    (import_tasks emptyTM (export_tasks st)).active_tasks = [] ∧
    (import_tasks emptyTM (export_tasks st)).task_queue = [] := by
  unfold import_tasks export_tasks emptyTM
  refine ⟨?_, ?_, ?_, rfl, rfl⟩
  · show st.scheduled_tasks.foldl (fun a kv => setKey a kv.1 kv.2) [] =
      st.scheduled_tasks
    rw [foldl_setKey_fresh st.scheduled_tasks [] (fun p _ => rfl) h1]
    simp
  · show st.completed_tasks.foldl (fun a kv => setKey a kv.1 kv.2) [] =
      st.completed_tasks
    rw [foldl_setKey_fresh st.completed_tasks [] (fun p _ => rfl) h2]
    simp
  · show st.failed_tasks.foldl (fun a kv => setKey a kv.1 kv.2) [] =
      st.failed_tasks
    rw [foldl_setKey_fresh st.failed_tasks [] (fun p _ => rfl) h3]
    simp

/-- C3 counterexample: a registered task with the unrecognized type string
`custom_type` is not dispatched to the general phase handler — even with
collaborators that all succeed, `execute_task` raises a TaskType
ValueError and marks the task failed, although the general collaborator
itself would have succeeded. -/
theorem C3_unrecognized_type_counterexample :
    (execute_task okCollabs "tn" customState "t1").1 =
      .error ("is not a valid TaskType: " ++ "custom_type") ∧
    ((lookupKey (execute_task okCollabs "tn" customState "t1").2 "t1").map
      OTask.status) = some "failed" ∧
    okCollabs.execute_general_task customTypeTask = .ok (.str "general done") :=
  ⟨rfl, rfl, rfl⟩

/-- C3 amended: the general handler is the fallback only within the
`TaskType` enum: a registered task whose declared type is `planning` or
`general` (the enum members other than the three specialized ones) is
dispatched to the general phase handler — `execute_task` behaves exactly
like the same pipeline with the dispatch fixed to the general handler. An
unrecognized type string instead raises `ValueError` and fails the task. -/
theorem C3_enum_fallback (c : Collabs) (now : String) (st : OrchState)
    (task_id : String) (task : OTask) (hl : lookupKey st task_id = some task)
    (htype : task.type = "planning" ∨ task.type = "general") :
    execute_task c now st task_id = general_route c now st task_id := by
  unfold execute_task general_route
  rw [hl]
  dsimp only
  cases hpl : c.analyze_and_plan
      ((lookupKey (logTask (updateTaskStatus st task_id "planning" now)
        task_id now "Starting planning and analysis phase") task_id).getD
          default) with
  | error e => rfl
  | ok pl =>
    have e1 : updateTaskStatus st task_id "planning" now =
        setKey st task_id { task with status := "planning", updated_at := now } :=
      updateTaskStatus_known st task_id "planning" now task hl
    rw [e1]
    rw [logTask_known _ task_id now "Starting planning and analysis phase" _
      (lookupKey_setKey_self st task_id _)]
    rw [setKey_setKey]
    dsimp only
    rw [modifyTask_known _ task_id _ _ (lookupKey_setKey_self st task_id _)]
    rw [setKey_setKey]
    rw [lookupKey_setKey_self]
    dsimp only [Option.getD_some]
    rcases htype with h | h <;> rw [h] <;> simp [parseTaskType]

/-- C3 amended witness: the fallback route on a concrete general task. -/
theorem C3_enum_fallback_witness :
    execute_task okCollabs "t5" generalState "t1" =
      general_route okCollabs "t5" generalState "t1" :=
  C3_enum_fallback okCollabs "t5" generalState "t1" generalTask rfl
    (Or.inr rfl)

/-- C5: a registered deployment-typed task whose metadata has no project
path fails with the MissingParameter error "Project path required for
deployment task" (re-raised to the caller as the returned error), its
status becomes `failed`, its error field is set to that non-empty string,
and a log entry recording the failure is appended. -/
theorem C5_deployment_missing_path (c : Collabs) (now : String)
    (st : OrchState) (task_id : String) (task : OTask) (pl : Val)
    (hl : lookupKey st task_id = some task)
    (htype : task.type = "deployment")
    (hpp : lookupKey task.metadata "project_path" = none)
    (hplan : ∀ t, c.analyze_and_plan t = .ok pl) :
    execute_task c now st task_id =
      (.error "Project path required for deployment task",
        setKey st task_id
          { task with
            status := "failed"
            updated_at := now
            logs := ((task.logs ++
              ["[" ++ now ++ "] " ++ "Starting planning and analysis phase"]) ++
              ["[" ++ now ++ "] " ++ "Starting deployment phase"]) ++
              ["[" ++ now ++ "] " ++
                "Task failed: Project path required for deployment task"]
            plan := some pl
            error := some "Project path required for deployment task" }) ∧
    "Project path required for deployment task" ≠ "" ∧
    ("[" ++ now ++ "] " ++ "Task failed: Project path required for deployment task")
      ∈ (((task.logs ++
        ["[" ++ now ++ "] " ++ "Starting planning and analysis phase"]) ++
        ["[" ++ now ++ "] " ++ "Starting deployment phase"]) ++
        ["[" ++ now ++ "] " ++
          "Task failed: Project path required for deployment task"]) := by
  refine ⟨?_, by simp, by simp⟩
  unfold execute_task
  rw [hl]
  dsimp only
  rw [hplan _]
  dsimp only
  rw [updateTaskStatus_known st task_id "planning" now task hl]
  rw [logTask_known _ task_id now "Starting planning and analysis phase" _
    (lookupKey_setKey_self st task_id _)]
  rw [setKey_setKey]
  rw [modifyTask_known _ task_id _ _ (lookupKey_setKey_self st task_id _)]
  rw [setKey_setKey]
  rw [lookupKey_setKey_self]
  dsimp only [Option.getD_some]
  rw [htype]
  simp only [parseTaskType, String.reduceEq, or_true, true_or, or_false,
    false_or, if_true, if_false, reduceIte]
  unfold execute_deployment_task
  dsimp only
  rw [updateTaskStatus_known _ task_id "in_progress" now _
    (lookupKey_setKey_self st task_id _)]
  rw [setKey_setKey]
  rw [logTask_known _ task_id now "Starting deployment phase" _
    (lookupKey_setKey_self st task_id _)]
  rw [setKey_setKey]
  rw [lookupKey_setKey_self]
  dsimp only [Option.getD_some]
  rw [hpp]
  dsimp only [Option.getD_none, Val.truthy]
  simp only [Bool.false_eq_true, if_false]
  unfold failTask
  dsimp only
  rw [updateTaskStatus_known _ task_id "failed" now _
    (lookupKey_setKey_self st task_id _)]
  rw [setKey_setKey]
  rw [modifyTask_known _ task_id _ _ (lookupKey_setKey_self st task_id _)]
  rw [setKey_setKey]
  rw [logTask_known _ task_id now _ _ (lookupKey_setKey_self st task_id _)]
  rw [setKey_setKey]
  rfl

/-- C5 witness: a concrete deployment task with no `project_path` key. -/
theorem C5_deployment_missing_path_witness :
    execute_task okCollabs "t7" [("d1", deployTask)] "d1" =
      (.error "Project path required for deployment task",
        setKey [("d1", deployTask)] "d1"
          { deployTask with
            status := "failed"
            updated_at := "t7"
            logs := ((deployTask.logs ++
              ["[" ++ "t7" ++ "] " ++ "Starting planning and analysis phase"]) ++
              ["[" ++ "t7" ++ "] " ++ "Starting deployment phase"]) ++
              ["[" ++ "t7" ++ "] " ++
                "Task failed: Project path required for deployment task"]
            plan := some (.str "plan")
            error := some "Project path required for deployment task" }) ∧
    "Project path required for deployment task" ≠ "" ∧
    ("[" ++ "t7" ++ "] " ++
      "Task failed: Project path required for deployment task")
      ∈ (((deployTask.logs ++
        ["[" ++ "t7" ++ "] " ++ "Starting planning and analysis phase"]) ++
        ["[" ++ "t7" ++ "] " ++ "Starting deployment phase"]) ++
        ["[" ++ "t7" ++ "] " ++
          "Task failed: Project path required for deployment task"]) :=
  C5_deployment_missing_path okCollabs "t7" [("d1", deployTask)] "d1"
    deployTask (.str "plan") rfl rfl rfl (fun t => rfl)

/-- C9 counterexample: a general task whose first `execute_task` fails in
planning and whose second `execute_task` succeeds ends in the terminal
state `completed` with BOTH `result` and `error` non-null — the error
recorded by the first run is never cleared. -/
theorem C9_result_error_counterexample :
    ((lookupKey afterBoth "t1").map
      (fun t => (t.status, t.result.isSome, t.error.isSome))) =
      some ("completed", true, true) := rfl

/-- C9 amended: when a task first reaches a terminal state — a single
`execute_task` call on a task whose `result` and `error` fields are still
null — at most one of `result` and `error` is set afterwards; only
repeated executions can leave both set, because a later success never
clears a previously recorded error. -/
theorem C9_terminal_single_run (c : Collabs) (now : String) (st : OrchState)
    (task_id : String) (task : OTask) (hl : lookupKey st task_id = some task)
    (hres : task.result = none) (herr : task.error = none) :
    ∀ t2, lookupKey (execute_task c now st task_id).2 task_id = some t2 →
      ¬(t2.result.isSome = true ∧ t2.error.isSome = true) := by
  intro t2 h2 hcontra
  obtain ⟨hr, he⟩ := hcontra
  rcases execute_task_result_or_error c now st task_id task_id with hc | hc
  · rw [h2, hl] at hc
    simp only [Option.map_some', Option.some.injEq] at hc
    rw [hc, hres] at hr
    simp at hr
  · rw [h2, hl] at hc
    simp only [Option.map_some', Option.some.injEq] at hc
    rw [hc, herr] at he
    simp at he

/-- C9 amended witness: a single successful run of the general task sets
at most one of result and error. -/
theorem C9_terminal_single_run_witness :
    ¬(((lookupKey (execute_task okCollabs "t5" generalState "t1").2
          "t1").getD default).result.isSome = true ∧
      ((lookupKey (execute_task okCollabs "t5" generalState "t1").2
          "t1").getD default).error.isSome = true) :=
  C9_terminal_single_run okCollabs "t5" generalState "t1" generalTask rfl rfl
    rfl
    ((lookupKey (execute_task okCollabs "t5" generalState "t1").2 "t1").getD
      default)
    rfl

/-- C8 amended witness: the sample store round-trips its scheduled,
completed and failed buckets and drops the rest. -/
theorem C8_roundtrip_partial_witness :
    (import_tasks emptyTM (export_tasks sampleTM)).scheduled_tasks =
      sampleTM.scheduled_tasks ∧
    (import_tasks emptyTM (export_tasks sampleTM)).completed_tasks =
      sampleTM.completed_tasks ∧
    (import_tasks emptyTM (export_tasks sampleTM)).failed_tasks =
      sampleTM.failed_tasks ∧
    (import_tasks emptyTM (export_tasks sampleTM)).active_tasks = [] ∧
    (import_tasks emptyTM (export_tasks sampleTM)).task_queue = [] :=
  C8_roundtrip_partial sampleTM (by decide) (by decide) (by decide)

end AIAgent
